import Mathlib

/-!
Verification development for the rentagun-chatbot repository.

Shallow embedding of the core components named by the specification:
the natural-language date parser (src/lib/dates.ts), the tool registry
and executor (src/lib/tools.ts), and the agentic orchestration loop of
the chat endpoint (createChatStreamWithTools).  JavaScript Date values
are modelled as integer day counts since 1970-01-01 (the code only ever
constructs and compares day-granularity local dates); strings are Lean
strings, with the few regular expressions of dates.ts implemented as
explicit matchers that follow the leftmost/greedy semantics of the
originals.
-/

/-! ### JavaScript string primitives used by dates.ts line 40 -/

/-- ASCII lowercasing of one character, as performed by
String.prototype.toLowerCase on the inputs the parser receives. -/
def jsLowerChar (c : Char) : Char :=
  if 65 ≤ c.toNat ∧ c.toNat ≤ 90 then Char.ofNat (c.toNat + 32) else c

/-- Whitespace class of String.prototype.trim and of the regex class
backslash-s, restricted to ASCII: space, tab, LF, VT, FF, CR. -/
def isSpaceChar (c : Char) : Bool :=
  decide (c.toNat = 32 ∨ c.toNat = 9 ∨ c.toNat = 10 ∨ c.toNat = 11 ∨
    c.toNat = 12 ∨ c.toNat = 13)

/-- Drop trailing characters satisfying p. -/
def dropTrailing (p : Char → Bool) (l : List Char) : List Char :=
  (l.reverse.dropWhile p).reverse

/-- String.prototype.trim on a character list. -/
def trimChars (l : List Char) : List Char :=
  dropTrailing isSpaceChar (l.dropWhile isSpaceChar)

/-- The normalisation of dates.ts line 40: input.toLowerCase().trim(). -/
def normalizeChars (l : List Char) : List Char :=
  trimChars (l.map jsLowerChar)

/-- ASCII lowercasing of a whole string, as PHP strtolower performs on
the ASCII range (part_009 lines 336 and 364). -/
def jsLowerStr (s : String) : String := String.mk (s.data.map jsLowerChar)

def isDigitChar (c : Char) : Bool := 48 ≤ c.toNat && c.toNat ≤ 57

def isLowerAlpha (c : Char) : Bool := 97 ≤ c.toNat && c.toNat ≤ 122

/-- Value of a list of decimal digit characters (JS parseInt on an
all-digit string). -/
def digitsToNat (l : List Char) : Nat :=
  l.foldl (fun acc c => acc * 10 + (c.toNat - 48)) 0

def digitsToInt (l : List Char) : Int := (digitsToNat l : Int)

/-! ### Civil-date arithmetic (the JavaScript Date model)

A JS Date constructed by dates.ts is a local calendar day; we represent
it by its day count since 1970-01-01.  Conversions use the standard
civil-from-days / days-from-civil algorithms with floor division, which
agree with JS Date's out-of-range normalisation (new Date(y, m, d)
accepts any integers m and d). -/

/-- Day count since 1970-01-01 of the first day of month m (1..12) in
year y. -/
def daysFromCivilMonth (y : Int) (m : Int) : Int :=
  let y' := if m ≤ 2 then y - 1 else y
  let era := Int.fdiv y' 400
  let yoe := y' - era * 400
  let mp := if m > 2 then m - 3 else m + 9
  let doy := Int.fdiv (153 * mp + 2) 5
  let doe := yoe * 365 + Int.fdiv yoe 4 - Int.fdiv yoe 100 + doy
  era * 146097 + doe - 719468

/-- Day count of new Date(y, m0, d) with JS conventions: m0 is a
0-based month index (normalised into the year with floor division) and
d is an arbitrary day number (day 0 is the last day of the previous
month, day 32 of January is February 1, and so on). -/
def jsMakeDate (y : Int) (m0 : Int) (d : Int) : Int :=
  daysFromCivilMonth (y + Int.fdiv m0 12) (Int.fmod m0 12 + 1) + (d - 1)

/-- Civil (year, month 1..12, day 1..31) of a day count. -/
def civilFromDays (z0 : Int) : Int × Int × Int :=
  let z := z0 + 719468
  let era := Int.fdiv z 146097
  let doe := z - era * 146097
  let yoe := Int.fdiv
    (doe - Int.fdiv doe 1460 + Int.fdiv doe 36524 - Int.fdiv doe 146096) 365
  let y := yoe + era * 400
  let doy := doe - (365 * yoe + Int.fdiv yoe 4 - Int.fdiv yoe 100)
  let mp := Int.fdiv (5 * doy + 2) 153
  let d := doy - Int.fdiv (153 * mp + 2) 5 + 1
  let m := if mp < 10 then mp + 3 else mp - 9
  (if m ≤ 2 then y + 1 else y, m, d)

/-- Day of week: 0 = Sunday .. 6 = Saturday (1970-01-01 was a
Thursday). -/
def dayOfWeek (d : Int) : Int := Int.fmod (d + 4) 7

/-- date-fns startOfWeek with weekStartsOn 1: the Monday on or before
the given day. -/
def startOfWeekMon (t : Int) : Int := t - Int.fmod (dayOfWeek t - 1) 7

/-- date-fns endOfWeek with weekStartsOn 1, at day granularity: the
Sunday ending the week. -/
def endOfWeekMon (t : Int) : Int := startOfWeekMon t + 6

/-- date-fns nextSaturday: the next Saturday strictly after the given
day (a Saturday maps to the Saturday one week later). -/
def nextSaturdayOf (t : Int) : Int :=
  let k := Int.fmod (6 - dayOfWeek t) 7
  t + (if k = 0 then 7 else k)

/-- date-fns nextSunday: the next Sunday strictly after the given
day. -/
def nextSundayOf (t : Int) : Int :=
  let k := Int.fmod (0 - dayOfWeek t) 7
  t + (if k = 0 then 7 else k)

/-- Decimal digits of n left-padded with zeros to width w. -/
def padDigits (w : Nat) (n : Nat) : List Char :=
  let s := Nat.toDigits 10 n
  List.replicate (w - s.length) '0' ++ s

/-- formatDate of dates.ts: format(date, yyyy-MM-dd). -/
def formatDate (d : Int) : String :=
  let c := civilFromDays d
  String.mk (padDigits 4 c.1.toNat ++ '-' :: padDigits 2 c.2.1.toNat
    ++ '-' :: padDigits 2 c.2.2.toNat)

/-! ### The ambient clock

dates.ts has no referenceDate parameter: it calls new Date() internally
(line 41 for startOfDay, and again for getFullYear inside several
resolution branches).  The ambient wall clock at the moment of the call
is modelled explicitly as a day count plus a time-of-day component; the
two reads the code performs are derived from it. -/

structure Clock where
  days : Int
  minutesOfDay : Nat
deriving DecidableEq, Repr

/-- startOfDay(new Date()) at dates.ts line 41. -/
def clockToday (c : Clock) : Int := c.days

/-- new Date().getFullYear() as read at dates.ts lines 155, 165, 175,
214 and 247. -/
def clockFullYear (c : Clock) : Int := (civilFromDays c.days).1

/-! ### The regular-expression matchers of dates.ts

Each matcher implements one of the literal regexes of dates.ts over the
normalised (lowercased, trimmed) input.  The originals use only
disjoint-class greedy pieces, so maximal-munch scanning is equivalent to
the backtracking semantics; digit groups with a bounded quantifier
followed by a non-digit are equivalent to requiring the whole digit run
to fit the bound. -/

/-- Character class of the range separator [-–to]+ at dates.ts lines
136 and 140. -/
def isRangeSepChar (c : Char) : Bool :=
  c == '-' || c == '–' || c == 't' || c == 'o'

/-- Unanchored search for: in \s+ (\d+) \s+ days?  (dates.ts line 119).
Attempts a match at the head position. -/
def matchInDaysAt (l : List Char) : Option (List Char) :=
  match l with
  | 'i' :: 'n' :: r1 =>
    let ws1 := r1.takeWhile isSpaceChar
    let r2 := r1.dropWhile isSpaceChar
    if ws1.isEmpty then none else
    let ds := r2.takeWhile isDigitChar
    let r3 := r2.dropWhile isDigitChar
    if ds.isEmpty then none else
    let ws2 := r3.takeWhile isSpaceChar
    let r4 := r3.dropWhile isSpaceChar
    if ws2.isEmpty then none else
    match r4 with
    | 'd' :: 'a' :: 'y' :: _ => some ds
    | _ => none
  | _ => none

/-- Leftmost occurrence search for the in-N-days pattern. -/
def searchInDays : List Char → Option (List Char)
  | [] => none
  | c :: rest =>
    match matchInDaysAt (c :: rest) with
    | some ds => some ds
    | none => searchInDays rest

/-- Unanchored search for: (\d+) \s+ days? \s+ from \s+ now  (dates.ts
line 120).  Attempts a match at the head position. -/
def matchDaysFromNowAt (l : List Char) : Option (List Char) :=
  let ds := l.takeWhile isDigitChar
  let r1 := l.dropWhile isDigitChar
  if ds.isEmpty then none else
  let ws1 := r1.takeWhile isSpaceChar
  let r2 := r1.dropWhile isSpaceChar
  if ws1.isEmpty then none else
  match r2 with
  | 'd' :: 'a' :: 'y' :: r3 =>
    let r3' := match r3 with | 's' :: t => t | _ => r3
    let ws2 := r3'.takeWhile isSpaceChar
    let r4 := r3'.dropWhile isSpaceChar
    if ws2.isEmpty then none else
    match r4 with
    | 'f' :: 'r' :: 'o' :: 'm' :: r5 =>
      let ws3 := r5.takeWhile isSpaceChar
      let r6 := r5.dropWhile isSpaceChar
      if ws3.isEmpty then none else
      match r6 with
      | 'n' :: 'o' :: 'w' :: _ => some ds
      | _ => none
    | _ => none
  | _ => none

/-- Leftmost occurrence search for the N-days-from-now pattern. -/
def searchDaysFromNow : List Char → Option (List Char)
  | [] => none
  | c :: rest =>
    match matchDaysFromNowAt (c :: rest) with
    | some ds => some ds
    | none => searchDaysFromNow rest

/-- Anchored: ^([a-z]+)\s+(\d\x7b1,2\x7d)\s*[-–to]+\s*(\d\x7b1,2\x7d)$
(dates.ts line 136, the January 20-27 form). -/
def matchMonthDayRange (l : List Char) : Option (List Char × List Char × List Char) :=
  let mon := l.takeWhile isLowerAlpha
  let r1 := l.dropWhile isLowerAlpha
  if mon.isEmpty then none else
  let ws1 := r1.takeWhile isSpaceChar
  let r2 := r1.dropWhile isSpaceChar
  if ws1.isEmpty then none else
  let d1 := r2.takeWhile isDigitChar
  let r3 := r2.dropWhile isDigitChar
  if d1.length = 0 ∨ 2 < d1.length then none else
  let r4 := r3.dropWhile isSpaceChar
  let sep := r4.takeWhile isRangeSepChar
  let r5 := r4.dropWhile isRangeSepChar
  if sep.isEmpty then none else
  let r6 := r5.dropWhile isSpaceChar
  let d2 := r6.takeWhile isDigitChar
  let r7 := r6.dropWhile isDigitChar
  if d2.length = 0 ∨ 2 < d2.length ∨ ¬ r7.isEmpty then none else
  some (mon, d1, d2)

/-- Anchored: ^([a-z]+)\s+(\d\x7b1,2\x7d)\s*(?:to|-)\s*([a-z]+)\s+(\d\x7b1,2\x7d)$
(dates.ts line 138, the Jan 20 to Jan 27 form). -/
def matchMonthToMonth (l : List Char) :
    Option (List Char × List Char × List Char × List Char) :=
  let m1 := l.takeWhile isLowerAlpha
  let r1 := l.dropWhile isLowerAlpha
  if m1.isEmpty then none else
  let ws1 := r1.takeWhile isSpaceChar
  let r2 := r1.dropWhile isSpaceChar
  if ws1.isEmpty then none else
  let d1 := r2.takeWhile isDigitChar
  let r3 := r2.dropWhile isDigitChar
  if d1.length = 0 ∨ 2 < d1.length then none else
  let r4 := r3.dropWhile isSpaceChar
  match (match r4 with
         | 't' :: 'o' :: rest => some rest
         | '-' :: rest => some rest
         | _ => none) with
  | none => none
  | some r5 =>
    let r6 := r5.dropWhile isSpaceChar
    let m2 := r6.takeWhile isLowerAlpha
    let r7 := r6.dropWhile isLowerAlpha
    if m2.isEmpty then none else
    let ws2 := r7.takeWhile isSpaceChar
    let r8 := r7.dropWhile isSpaceChar
    if ws2.isEmpty then none else
    let d2 := r8.takeWhile isDigitChar
    let r9 := r8.dropWhile isDigitChar
    if d2.length = 0 ∨ 2 < d2.length ∨ ¬ r9.isEmpty then none else
    some (m1, d1, m2, d2)

/-- Anchored: ^(\d\x7b1,2\x7d)\/(\d\x7b1,2\x7d)\s*[-–to]+\s*(\d\x7b1,2\x7d)\/(\d\x7b1,2\x7d)$
(dates.ts line 140, the 1/20 - 1/27 form). -/
def matchSlashRange (l : List Char) :
    Option (List Char × List Char × List Char × List Char) :=
  let m1 := l.takeWhile isDigitChar
  let r1 := l.dropWhile isDigitChar
  if m1.length = 0 ∨ 2 < m1.length then none else
  match r1 with
  | '/' :: r2 =>
    let d1 := r2.takeWhile isDigitChar
    let r3 := r2.dropWhile isDigitChar
    if d1.length = 0 ∨ 2 < d1.length then none else
    let r4 := r3.dropWhile isSpaceChar
    let sep := r4.takeWhile isRangeSepChar
    let r5 := r4.dropWhile isRangeSepChar
    if sep.isEmpty then none else
    let r6 := r5.dropWhile isSpaceChar
    let m2 := r6.takeWhile isDigitChar
    let r7 := r6.dropWhile isDigitChar
    if m2.length = 0 ∨ 2 < m2.length then none else
    match r7 with
    | '/' :: r8 =>
      let d2 := r8.takeWhile isDigitChar
      let r9 := r8.dropWhile isDigitChar
      if d2.length = 0 ∨ 2 < d2.length ∨ ¬ r9.isEmpty then none else
      some (m1, d1, m2, d2)
    | _ => none
  | _ => none

/-- Optional ordinal suffix (?:st|nd|rd|th)? -/
def dropOrdinal (l : List Char) : List Char :=
  match l with
  | 's' :: 't' :: t => t
  | 'n' :: 'd' :: t => t
  | 'r' :: 'd' :: t => t
  | 't' :: 'h' :: t => t
  | _ => l

/-- Anchored duration form of dates.ts line 207:
^([a-z]+)\s+(\d\x7b1,2\x7d)(?:st|nd|rd|th)?\s+for\s+(\d+)\s+days?$ -/
def matchMonthDayDuration (l : List Char) :
    Option (List Char × List Char × List Char) :=
  let mon := l.takeWhile isLowerAlpha
  let r1 := l.dropWhile isLowerAlpha
  if mon.isEmpty then none else
  let ws1 := r1.takeWhile isSpaceChar
  let r2 := r1.dropWhile isSpaceChar
  if ws1.isEmpty then none else
  let d := r2.takeWhile isDigitChar
  let r3 := r2.dropWhile isDigitChar
  if d.length = 0 ∨ 2 < d.length then none else
  let r3' := dropOrdinal r3
  let ws2 := r3'.takeWhile isSpaceChar
  let r4 := r3'.dropWhile isSpaceChar
  if ws2.isEmpty then none else
  match r4 with
  | 'f' :: 'o' :: 'r' :: r5 =>
    let ws3 := r5.takeWhile isSpaceChar
    let r6 := r5.dropWhile isSpaceChar
    if ws3.isEmpty then none else
    let n := r6.takeWhile isDigitChar
    let r7 := r6.dropWhile isDigitChar
    if n.isEmpty then none else
    let ws4 := r7.takeWhile isSpaceChar
    let r8 := r7.dropWhile isSpaceChar
    if ws4.isEmpty then none else
    match r8 with
    | 'd' :: 'a' :: 'y' :: tail =>
      if tail = [] ∨ tail = ['s'] then some (mon, d, n) else none
    | _ => none
  | _ => none

/-- Anchored single month-day form of dates.ts line 237:
^([a-z]+)\s+(\d\x7b1,2\x7d)(?:st|nd|rd|th)?$ -/
def matchMonthDaySingle (l : List Char) : Option (List Char × List Char) :=
  let mon := l.takeWhile isLowerAlpha
  let r1 := l.dropWhile isLowerAlpha
  if mon.isEmpty then none else
  let ws1 := r1.takeWhile isSpaceChar
  let r2 := r1.dropWhile isSpaceChar
  if ws1.isEmpty then none else
  let d := r2.takeWhile isDigitChar
  let r3 := r2.dropWhile isDigitChar
  if d.length = 0 ∨ 2 < d.length then none else
  if dropOrdinal r3 = [] then some (mon, d) else none

/-- Anchored single slash form of dates.ts line 239:
^(\d\x7b1,2\x7d)\/(\d\x7b1,2\x7d)$ -/
def matchSlashSingle (l : List Char) : Option (List Char × List Char) :=
  let m := l.takeWhile isDigitChar
  let r1 := l.dropWhile isDigitChar
  if m.length = 0 ∨ 2 < m.length then none else
  match r1 with
  | '/' :: r2 =>
    let d := r2.takeWhile isDigitChar
    let r3 := r2.dropWhile isDigitChar
    if d.length = 0 ∨ 2 < d.length ∨ ¬ r3.isEmpty then none else some (m, d)
  | _ => none

/-- Four-two-two digit ISO date piece \d\x7b4\x7d-\d\x7b2\x7d-\d\x7b2\x7d; returns
((year digits, month digits, day digits), rest). -/
def matchIsoDate (l : List Char) :
    Option ((List Char × List Char × List Char) × List Char) :=
  let y := l.takeWhile isDigitChar
  let r1 := l.dropWhile isDigitChar
  if ¬ y.length = 4 then none else
  match r1 with
  | '-' :: r2 =>
    let m := r2.takeWhile isDigitChar
    let r3 := r2.dropWhile isDigitChar
    if ¬ m.length = 2 then none else
    match r3 with
    | '-' :: r4 =>
      let d := r4.takeWhile isDigitChar
      let r5 := r4.dropWhile isDigitChar
      if ¬ d.length = 2 then none else some ((y, m, d), r5)
    | _ => none
  | _ => none

/-- Anchored ISO form of dates.ts line 277:
^(\d\x7b4\x7d-\d\x7b2\x7d-\d\x7b2\x7d)(?:\s*(?:to|-)\s*(\d\x7b4\x7d-\d\x7b2\x7d-\d\x7b2\x7d))?$ -/
def matchISO (l : List Char) :
    Option ((List Char × List Char × List Char) ×
      Option (List Char × List Char × List Char)) :=
  match matchIsoDate l with
  | none => none
  | some (d1, rest) =>
    if rest = [] then some (d1, none) else
    let r1 := rest.dropWhile isSpaceChar
    match (match r1 with
           | 't' :: 'o' :: t => some t
           | '-' :: t => some t
           | _ => none) with
    | none => none
    | some r2 =>
      let r3 := r2.dropWhile isSpaceChar
      match matchIsoDate r3 with
      | some (d2, tail) => if tail = [] then some (d1, some d2) else none
      | none => none

/-! ### parseNaturalDate (dates.ts lines 39-308) -/

structure DateParseResult where
  success : Bool
  startDate : Option String := none
  endDate : Option String := none
  error : Option String := none
deriving DecidableEq, Repr

/-- Successful range result (formatDate on both endpoints). -/
def dateOk (s e : Int) : DateParseResult :=
  { success := true, startDate := some (formatDate s), endDate := some (formatDate e) }

/-- Result of validateNotPast failing (dates.ts lines 44-52). -/
def pastErrorResult : DateParseResult :=
  { success := false,
    error := some "That date is in the past. Please choose a future date." }

/-- Fallthrough result of dates.ts lines 303-307. -/
def genericErrorResult : DateParseResult :=
  { success := false,
    error := some "I couldn't understand those dates. Try something like 'next week', 'January 20-27', or 'tomorrow'." }

/-- Month-name table of parseMonthDay (dates.ts lines 321-334), as a
0-based month index. -/
def monthIndex (m : List Char) : Option Int :=
  let s := String.mk (m.map jsLowerChar)
  if s = "january" ∨ s = "jan" then some 0
  else if s = "february" ∨ s = "feb" then some 1
  else if s = "march" ∨ s = "mar" then some 2
  else if s = "april" ∨ s = "apr" then some 3
  else if s = "may" then some 4
  else if s = "june" ∨ s = "jun" then some 5
  else if s = "july" ∨ s = "jul" then some 6
  else if s = "august" ∨ s = "aug" then some 7
  else if s = "september" ∨ s = "sep" ∨ s = "sept" then some 8
  else if s = "october" ∨ s = "oct" then some 9
  else if s = "november" ∨ s = "nov" then some 10
  else if s = "december" ∨ s = "dec" then some 11
  else none

/-- parseMonthDay (dates.ts lines 320-342); none models the thrown
Invalid-month error. -/
def parseMonthDay (mon day : List Char) (year : Int) : Option Int :=
  (monthIndex mon).map (fun mi => jsMakeDate year mi (digitsToInt day))

/-- addYearIfPast (dates.ts lines 347-352): new Date(y+1, month, day)
of the same civil components when the date is before the reference. -/
def addYearIfPast (d ref : Int) : Int :=
  if d < ref then
    let c := civilFromDays d
    jsMakeDate (c.1 + 1) (c.2.1 - 1) c.2.2
  else d

/-- Shared rollover-and-validate logic of the range branch (dates.ts
lines 185-198). -/
def resolveRange (startDate endDate today : Int) : DateParseResult :=
  let s := if startDate < today then addYearIfPast startDate today else startDate
  let e := if startDate < today then addYearIfPast endDate today else endDate
  if s < today then pastErrorResult else dateOk s e

/-- Shared rollover-and-validate logic of the single-date branches
(dates.ts lines 216-222 and 255-262), yielding the start day. -/
def resolveSingleStart (startDate today : Int) : Option Int :=
  let s := if startDate < today then addYearIfPast startDate today else startDate
  if s < today then none else some s

/-- parseISOAsLocal (dates.ts lines 358-365) on matched digit groups. -/
def parseISOAsLocal (d : List Char × List Char × List Char) : Int :=
  jsMakeDate (digitsToInt d.1) (digitsToInt d.2.1 - 1) (digitsToInt d.2.2)

/-- First range pattern (dates.ts lines 150-158, January 20-27 form);
none is no-match or a parseMonthDay throw (a continue). -/
def rangeTry1 (norm : List Char) (today year : Int) : Option DateParseResult :=
  match matchMonthDayRange norm with
  | some (mon, d1, d2) =>
    match parseMonthDay mon d1 year, parseMonthDay mon d2 year with
    | some s, some e => some (resolveRange s e today)
    | _, _ => none
  | none => none

/-- Second range pattern (dates.ts lines 159-168, Jan 20 to Jan 27
form). -/
def rangeTry2 (norm : List Char) (today year : Int) : Option DateParseResult :=
  match matchMonthToMonth norm with
  | some (m1, d1, m2, d2) =>
    match parseMonthDay m1 d1 year, parseMonthDay m2 d2 year with
    | some s, some e => some (resolveRange s e today)
    | _, _ => none
  | none => none

/-- Third range pattern (dates.ts lines 169-179, 1/20 - 1/27 form). -/
def rangeTry3 (norm : List Char) (today year : Int) : Option DateParseResult :=
  match matchSlashRange norm with
  | some (m1, d1, m2, d2) =>
    some (resolveRange (jsMakeDate year (digitsToInt m1 - 1) (digitsToInt d1))
      (jsMakeDate year (digitsToInt m2 - 1) (digitsToInt d2)) today)
  | none => none

/-- Range-pattern loop of dates.ts lines 134-203: each pattern is tried
in order; a parseMonthDay throw is a continue. -/
def rangeBranch (norm : List Char) (today year : Int) : Option DateParseResult :=
  (rangeTry1 norm today year) <|> (rangeTry2 norm today year) <|>
    (rangeTry3 norm today year)

/-- Duration branch of dates.ts lines 206-232. -/
def durationBranch (norm : List Char) (today year : Int) : Option DateParseResult :=
  match matchMonthDayDuration norm with
  | some (mon, d, n) =>
    match parseMonthDay mon d year with
    | some s0 =>
      some (match resolveSingleStart s0 today with
            | none => pastErrorResult
            | some s => dateOk s (s + (digitsToInt n - 1)))
    | none => none
  | none => none

/-- First single-date pattern (dates.ts line 237, January 20 form);
7-day default window. -/
def singleTry1 (norm : List Char) (today year : Int) : Option DateParseResult :=
  match matchMonthDaySingle norm with
  | some (mon, d) =>
    match parseMonthDay mon d year with
    | some s0 =>
      some (match resolveSingleStart s0 today with
            | none => pastErrorResult
            | some s => dateOk s (s + 6))
    | none => none
  | none => none

/-- Second single-date pattern (dates.ts line 239, 1/20 form). -/
def singleTry2 (norm : List Char) (today year : Int) : Option DateParseResult :=
  match matchSlashSingle norm with
  | some (m, d) =>
    some (match resolveSingleStart (jsMakeDate year (digitsToInt m - 1) (digitsToInt d)) today with
          | none => pastErrorResult
          | some s => dateOk s (s + 6))
  | none => none

/-- Single-date branch of dates.ts lines 235-273 (month-day form, then
slash form; 7-day default window). -/
def singleBranch (norm : List Char) (today year : Int) : Option DateParseResult :=
  (singleTry1 norm today year) <|> (singleTry2 norm today year)

/-- ISO branch of dates.ts lines 276-301. -/
def isoBranch (norm : List Char) (today : Int) : Option DateParseResult :=
  match matchISO norm with
  | some (d1, od2) =>
    let s := parseISOAsLocal d1
    let e := match od2 with
             | some d2 => parseISOAsLocal d2
             | none => s + 6
    some (if s < today then pastErrorResult else dateOk s e)
  | none => none

/-- Body of parseNaturalDate over the already-normalised input. -/
def parseNorm (normalized : List Char) (now : Clock) : DateParseResult :=
  let today := clockToday now
  if normalized = "today".data then dateOk today (today + 6)
  else if normalized = "tomorrow".data then dateOk (today + 1) (today + 1 + 6)
  else if normalized = "this week".data then
    let start := startOfWeekMon today
    let actualStart := if start < today then today else start
    dateOk actualStart (endOfWeekMon today)
  else if normalized = "next week".data then
    dateOk (startOfWeekMon (today + 7)) (endOfWeekMon (today + 7))
  else if normalized = "this weekend".data then
    dateOk (nextSaturdayOf today) (nextSundayOf today)
  else if normalized = "next weekend".data then
    let saturday := nextSaturdayOf (today + 7)
    dateOk saturday (saturday + 1)
  else
    match (searchInDays normalized).orElse (fun _ => searchDaysFromNow normalized) with
    | some ds =>
      let start := today + digitsToInt ds
      dateOk start (start + 6)
    | none =>
      match rangeBranch normalized today (clockFullYear now) with
      | some r => r
      | none =>
        match durationBranch normalized today (clockFullYear now) with
        | some r => r
        | none =>
          match singleBranch normalized today (clockFullYear now) with
          | some r => r
          | none =>
            match isoBranch normalized today with
            | some r => r
            | none => genericErrorResult

/-- parseNaturalDate (dates.ts line 39).  The source signature is
parseNaturalDate(input: string); the ambient clock it reads with
new Date() is the explicit second argument of the embedding. -/
def parseNaturalDate (input : String) (now : Clock) : DateParseResult :=
  parseNorm (normalizeChars input.data) now

/-- Instrumentation of parseNaturalDate counting the evaluations of
new Date() (global clock reads) along the executed path of dates.ts:
one at line 41 (startOfDay(new Date())) on every call, and one more for
each pattern branch that is entered and reads
new Date().getFullYear() — line 155 / 165 / 175 when the corresponding
range pattern matches, line 214 when the duration pattern matches, and
line 247 for each single-date pattern that matches.  Branches are
reached exactly as in parseNorm. -/
def parseClockReads (input : String) (now : Clock) : Nat :=
  let normalized := normalizeChars input.data
  let today := clockToday now
  let year := clockFullYear now
  if normalized = "today".data ∨ normalized = "tomorrow".data ∨
      normalized = "this week".data ∨ normalized = "next week".data ∨
      normalized = "this weekend".data ∨ normalized = "next weekend".data then 1
  else if ((searchInDays normalized).orElse
      (fun _ => searchDaysFromNow normalized)).isSome then 1
  else
    let k1 := if (matchMonthDayRange normalized).isSome then 1 else 0
    if (rangeTry1 normalized today year).isSome then 1 + k1 else
    let k2 := k1 + (if (matchMonthToMonth normalized).isSome then 1 else 0)
    if (rangeTry2 normalized today year).isSome then 1 + k2 else
    let k3 := k2 + (if (matchSlashRange normalized).isSome then 1 else 0)
    if (rangeTry3 normalized today year).isSome then 1 + k3 else
    let k4 := k3 + (if (matchMonthDayDuration normalized).isSome then 1 else 0)
    if (durationBranch normalized today year).isSome then 1 + k4 else
    let k5 := k4 + (if (matchMonthDaySingle normalized).isSome then 1 else 0)
    if (singleTry1 normalized today year).isSome then 1 + k5 else
    let k6 := k5 + (if (matchSlashSingle normalized).isSome then 1 else 0)
    1 + k6

/-! ### Tool registry and executor (src/lib/tools.ts)

Backend collaborators (the WooCommerce client of src/lib/woocommerce.ts)
are modelled as functions supplied in an environment; a thrown JS
exception is an Except.error carrying either a WooCommerceError (code,
message, status) or an arbitrary other exception. -/

/-- JS truthiness of an optional string (undefined and the empty string
are falsy). -/
def strTruthy : Option String → Bool
  | none => false
  | some s => ¬ s.isEmpty

/-- JS truthiness of an optional number (undefined and 0 are falsy). -/
def natTruthy : Option Nat → Bool
  | none => false
  | some n => n ≠ 0

/-- JS expression o || d for an optional string o. -/
def orDefaultStr (o : Option String) (d : String) : String :=
  match o with
  | some s => if s.isEmpty then d else s
  | none => d

inductive Thrown where
  | woo (code message : String) (status : Nat)
  | other (tag : String)
deriving DecidableEq, Repr

structure ProductCategory where
  id : Nat := 0
  name : String := ""
  slug : String := ""
deriving DecidableEq, Repr

structure ProductImage where
  id : Nat := 0
  src : String := ""
  alt : String := ""
deriving DecidableEq, Repr

structure Product where
  id : Nat
  name : String
  slug : String := ""
  price : String := ""
  regular_price : String := ""
  images : List ProductImage := []
  categories : List ProductCategory := []
  available : Bool := true
  next_available_date : Option String := none
deriving DecidableEq, Repr

/-- The fields of ProductSearchParams that handleProductSearch
populates (woocommerce.ts lines 164-170). -/
structure ProductSearchParams where
  category : Option String
  available_only : Bool
  per_page : Nat
deriving DecidableEq, Repr

structure ProductListResponse where
  products : List Product
  total : Nat := 0
deriving DecidableEq, Repr

structure AvailabilityRequest where
  product_id : Nat
  start_date : String
  end_date : String
deriving DecidableEq, Repr

structure AvailabilityResponse where
  available : Bool
  next_available_date : Option String := none
  resources_available : Nat := 0
  fulfillment_source : String := ""
deriving DecidableEq, Repr

structure OrderLookupRequest where
  order_number : String
  email : String
deriving DecidableEq, Repr

structure OrderLineItem where
  name : String
deriving DecidableEq, Repr

structure OrderRentalDates where
  start_date : Option String := none
  end_date : Option String := none
deriving DecidableEq, Repr

structure OrderShipping where
  tracking_number : Option String := none
  tracking_url : Option String := none
deriving DecidableEq, Repr

structure OrderFfl where
  name : String := ""
  address : String := ""
  city : String := ""
  state : String := ""
  zip : String := ""
  phone : String := ""
deriving DecidableEq, Repr

structure Order where
  order_number : String
  status : String := ""
  line_items : List OrderLineItem := []
  rental_dates : Option OrderRentalDates := none
  shipping : Option OrderShipping := none
  ffl : Option OrderFfl := none
deriving DecidableEq, Repr

/-- The tool input object (Record of unknown values); each field is the
typed value the handlers read, absent fields are none. -/
structure ToolInput where
  query : Option String := none
  category : Option String := none
  available_only : Option Bool := none
  dates : Option String := none
  start_date : Option String := none
  end_date : Option String := none
  product_id : Option Nat := none
  product_name : Option String := none
  order_number : Option String := none
  email : Option String := none
deriving DecidableEq, Repr

/-- Mapped product item in the search_products data payload (tools.ts
lines 202-212).  daily_rate is carried in cents. -/
structure ProductPayload where
  id : Nat
  name : String
  price : String
  daily_rate_cents : Int
  available : Bool
  next_available_date : Option String
  image : Option String
  url : String
  categories : List String
deriving DecidableEq, Repr

/-- Structured data payload of a ToolResult. -/
inductive ToolData where
  | products (items : List ProductPayload) (total : Option Nat)
  | availability (available : Bool) (product_id : Nat)
      (product_name : Option String) (start_date end_date : String)
      (next_available_date : Option String) (booking_url : Option String)
  | order (o : Order)
deriving DecidableEq, Repr

structure ToolResult where
  success : Bool
  data : Option ToolData := none
  error : Option String := none
  display : Option String := none
deriving DecidableEq, Repr

/-- Environment of backend collaborators and ambient state consumed by
the tool handlers. -/
structure ToolEnv where
  clock : Clock
  wordpressUrl : String
  searchProducts : String → Except Thrown (List Product)
  getProducts : ProductSearchParams → Except Thrown ProductListResponse
  checkAvailability : AvailabilityRequest → Except Thrown AvailabilityResponse
  lookupOrder : OrderLookupRequest → Except Thrown Order

/-- JS parseFloat restricted to plain decimal literals; inputs on which
parseFloat yields NaN are modelled as 0 (no claim depends on the
numeric rate value). -/
def parseFloatQ (s : String) : Rat :=
  let l := s.data.dropWhile isSpaceChar
  let negAndRest : Bool × List Char :=
    match l with
    | '-' :: t => (true, t)
    | '+' :: t => (false, t)
    | _ => (false, l)
  let ip := negAndRest.2.takeWhile isDigitChar
  let l2 := negAndRest.2.dropWhile isDigitChar
  let fp := match l2 with
            | '.' :: t => t.takeWhile isDigitChar
            | _ => []
  let v : Rat := (digitsToNat ip : Rat) + (digitsToNat fp : Rat) / ((10 : Rat) ^ fp.length)
  if negAndRest.1 then -v else v

/-- calculateDailyRate (tools.ts lines 330-333):
Math.round(parseFloat(regular_price || price) * 0.02 * 100), i.e. the
daily rate in cents, with JS floating point replaced by exact rational
arithmetic. -/
def calculateDailyRateCents (p : Product) : Int :=
  let priceStr := if p.regular_price.isEmpty then p.price else p.regular_price
  Int.floor (2 * parseFloatQ priceStr + (1 : Rat) / 2)

/-- Rendering of the cents rate the way JS prints the number. -/
def showCents (c : Int) : String :=
  let q := Int.fdiv c 100
  let r := (Int.fmod c 100).toNat
  if r = 0 then toString q
  else if r % 10 = 0 then toString q ++ "." ++ toString (r / 10)
  else toString q ++ "." ++ (if r < 10 then "0" else "") ++ toString r

/-- buildBookingUrl (woocommerce.ts lines 353-366). -/
def buildBookingUrl (base : String) (p : Product)
    (startDate endDate : Option String) : String :=
  let ps := (if strTruthy startDate then ["start_date=" ++ startDate.getD ""] else [])
    ++ (if strTruthy endDate then ["end_date=" ++ endDate.getD ""] else [])
  let url := base ++ "/product/" ++ p.slug ++ "/"
  if ps.isEmpty then url else url ++ "?" ++ String.intercalate "&" ps

/-- One line of formatProductResults (tools.ts lines 339-348). -/
def formatProductLine (i : Nat) (p : Product) : String :=
  let availability :=
    if p.available then "✅ Available now"
    else if strTruthy p.next_available_date then
      "📅 Next available: " ++ p.next_available_date.getD ""
    else "⏳ Check back soon"
  toString (i + 1) ++ ". **" ++ p.name ++ "** - $"
    ++ showCents (calculateDailyRateCents p) ++ "/day\n   " ++ availability

/-- formatProductResults (tools.ts lines 338-352). -/
def formatProductResults (products : List Product) : String :=
  "Found " ++ toString products.length ++ " firearms:\n\n"
    ++ String.intercalate "\n\n" (products.enum.map (fun ip => formatProductLine ip.1 ip.2))

/-- formatAvailabilityResult (tools.ts lines 357-375). -/
def formatAvailabilityResult (availability : AvailabilityResponse)
    (product : Option Product) (startDate endDate : String) : String :=
  let productName := orDefaultStr (product.map (·.name)) "This firearm"
  let dateRange := startDate ++ " to " ++ endDate
  if availability.available then
    "✅ **" ++ productName ++ "** is available for " ++ dateRange
      ++ "!\n\nReady to book? I can help you complete your reservation."
  else if strTruthy availability.next_available_date then
    "❌ **" ++ productName ++ "** is not available for " ++ dateRange
      ++ ".\n\n📅 Next available: **" ++ availability.next_available_date.getD ""
      ++ "**\n\nWould you like me to check those dates instead, or show you similar firearms that are available now?"
  else
    "❌ **" ++ productName ++ "** is not available for " ++ dateRange
      ++ ".\n\nWould you like me to show you similar firearms that are available?"

/-- getStatusEmoji (tools.ts lines 408-421). -/
def getStatusEmoji (status : String) : String :=
  if status = "pending" then "⏳"
  else if status = "processing" then "📋"
  else if status = "shipped" then "📦"
  else if status = "at-ffl" then "🏪"
  else if status = "with-customer" then "✅"
  else if status = "return-shipped" then "↩️"
  else if status = "completed" then "✅"
  else if status = "cancelled" then "❌"
  else if status = "refunded" then "💰"
  else "📋"

/-- formatOrderResult (tools.ts lines 380-403). -/
def formatOrderResult (o : Order) : String :=
  let items := String.intercalate ", " (o.line_items.map (·.name))
  let base := getStatusEmoji o.status ++ " **Order #" ++ o.order_number
    ++ "**\n\n**Status:** " ++ o.status ++ "\n**Items:** " ++ items
    ++ "\n**Rental Dates:** "
    ++ orDefaultStr (o.rental_dates.bind (·.start_date)) "N/A"
    ++ " to " ++ orDefaultStr (o.rental_dates.bind (·.end_date)) "N/A"
  let withTracking :=
    if strTruthy (o.shipping.bind (·.tracking_number)) then
      base ++ "\n\n📦 **Tracking:** [" ++ (o.shipping.bind (·.tracking_number)).getD ""
        ++ "](" ++ (o.shipping.bind (·.tracking_url)).getD "undefined" ++ ")"
    else base
  match o.ffl with
  | some f =>
    withTracking ++ "\n\n📍 **Pickup Location:**\n" ++ f.name ++ "\n"
      ++ f.address ++ "\n" ++ f.city ++ ", " ++ f.state ++ " " ++ f.zip
      ++ "\n📞 " ++ f.phone
  | none => withTracking

/-- getErrorMessage (tools.ts lines 426-436). -/
def getErrorMessage (code : String) : String :=
  if code = "product_not_found" then "I couldn't find that firearm in our inventory."
  else if code = "order_not_found" then "I couldn't find that order. Please check your order number and email."
  else if code = "invalid_date" then "Those dates don't look right. Please try again."
  else if code = "rate_limit" then "You've made too many requests. Please wait a moment and try again."
  else if code = "connection_error" then "I'm having trouble connecting to our system. Please try again."
  else if code = "missing_api_key" then "There's a configuration issue. Please contact support."
  else "Something went wrong. Please try again."

/-- Mapped product of the search_products data payload (tools.ts lines
202-212). -/
def productPayload (env : ToolEnv) (p : Product) : ProductPayload :=
  { id := p.id
    name := p.name
    price := p.price
    daily_rate_cents := calculateDailyRateCents p
    available := p.available
    next_available_date := p.next_available_date
    image := match p.images.head? with
             | some im => if im.src.isEmpty then none else some im.src
             | none => none
    url := buildBookingUrl env.wordpressUrl p none none
    categories := p.categories.map (·.name) }

/-- handleProductSearch (tools.ts lines 154-217). -/
def handleProductSearch (env : ToolEnv) (input : ToolInput) :
    Except Thrown ToolResult :=
  let query := input.query
  let category := input.category
  let availableOnly := input.available_only ≠ some false
  let fetched : Except Thrown (List Product) :=
    if strTruthy query then env.searchProducts (query.getD "")
    else match env.getProducts
        { category := category, available_only := availableOnly, per_page := 10 } with
      | .error e => .error e
      | .ok resp => .ok resp.products
  match fetched with
  | .error e => .error e
  | .ok products0 =>
    let products1 :=
      if strTruthy query ∧ strTruthy category then
        products0.filter (fun p => p.categories.any (fun c => c.slug = category.getD ""))
      else products0
    let products2 := if availableOnly then products1.filter (·.available) else products1
    let products := products2.take 6
    if products.isEmpty then
      .ok { success := true, data := some (ToolData.products [] none),
            display := some (if availableOnly then
              "I couldn't find any available firearms matching that search. Would you like me to show all firearms, including those currently rented out?"
            else
              "I couldn't find any firearms matching that search. Try different keywords or browse by category.") }
    else
      .ok { success := true
            data := some (ToolData.products (products.map (productPayload env))
              (some products.length))
            display := some (formatProductResults products) }

/-- Date resolution step of handleAvailabilityCheck (tools.ts lines
226-247): either a (startDate, endDate) pair or the early-returned tool
result. -/
def resolveRequestDates (env : ToolEnv) (input : ToolInput) :
    (String × String) ⊕ ToolResult :=
  if strTruthy input.dates then
    let parsed := parseNaturalDate (input.dates.getD "") env.clock
    if parsed.success then .inl (parsed.startDate.getD "", parsed.endDate.getD "")
    else .inr { success := false
                error := some (orDefaultStr parsed.error
                  "I couldn't understand those dates. Try something like 'next week' or 'January 20-27'.") }
  else if strTruthy input.start_date ∧ strTruthy input.end_date then
    .inl (input.start_date.getD "", input.end_date.getD "")
  else
    .inr { success := false
           error := some "Please specify the dates you want to rent." }

/-- handleAvailabilityCheck (tools.ts lines 222-294). -/
def handleAvailabilityCheck (env : ToolEnv) (input : ToolInput) :
    Except Thrown ToolResult :=
  match resolveRequestDates env input with
  | .inr r => .ok r
  | .inl (startDate, endDate) =>
    let resolved : Except Thrown (Option Product × Option Nat) :=
      if ¬ natTruthy input.product_id ∧ strTruthy input.product_name then
        match env.searchProducts (input.product_name.getD "") with
        | .error e => .error e
        | .ok products =>
          if products.isEmpty then .ok (none, input.product_id)
          else .ok (products.head?, products.head?.map (·.id))
      else .ok (none, input.product_id)
    match resolved with
    | .error e => .error e
    | .ok (product0, productId) =>
      if ¬ natTruthy productId then
        .ok { success := false
              error := some "I couldn't find that firearm. Could you tell me the specific name or search for it first?" }
      else
        match env.checkAvailability
          { product_id := productId.getD 0, start_date := startDate,
            end_date := endDate } with
        | .error e => .error e
        | .ok availability =>
          let productE : Except Thrown (Option Product) :=
            if product0.isNone then
              match env.searchProducts (toString (productId.getD 0)) with
              | .error e => .error e
              | .ok products => .ok (products.find? (fun p => p.id = productId.getD 0))
            else .ok product0
          match productE with
          | .error e => .error e
          | .ok product =>
            .ok { success := true
                  data := some (ToolData.availability availability.available
                    (productId.getD 0) (product.map (·.name)) startDate endDate
                    availability.next_available_date
                    (product.map (fun p =>
                      buildBookingUrl env.wordpressUrl p (some startDate) (some endDate))))
                  display := some (formatAvailabilityResult availability product startDate endDate) }

/-- Order-number normalisation of tools.ts line 313: strip a leading
case-insensitive RAG- token. -/
def cleanOrderNumber (s : String) : String :=
  match s.data with
  | c1 :: c2 :: c3 :: c4 :: rest =>
    if jsLowerChar c1 = 'r' ∧ jsLowerChar c2 = 'a' ∧ jsLowerChar c3 = 'g'
        ∧ c4 = '-' then String.mk rest
    else s
  | _ => s

/-- handleOrderLookup (tools.ts lines 299-325). -/
def handleOrderLookup (env : ToolEnv) (input : ToolInput) :
    Except Thrown ToolResult :=
  if ¬ strTruthy input.order_number ∨ ¬ strTruthy input.email then
    .ok { success := false
          error := some "I need both your order number and email address to look up your order." }
  else
    match env.lookupOrder
      { order_number := cleanOrderNumber (input.order_number.getD "")
        email := input.email.getD "" } with
    | .error e => .error e
    | .ok o =>
      .ok { success := true, data := some (ToolData.order o),
            display := some (formatOrderResult o) }

/-- Tool dispatch switch of handleToolCall (tools.ts lines 119-134). -/
def rawToolDispatch (env : ToolEnv) (toolName : String) (input : ToolInput) :
    Except Thrown ToolResult :=
  if toolName = "search_products" then handleProductSearch env input
  else if toolName = "check_availability" then handleAvailabilityCheck env input
  else if toolName = "lookup_order" then handleOrderLookup env input
  else .ok { success := false, error := some ("Unknown tool: " ++ toolName) }

/-- User-facing message of the catch clause of handleToolCall (tools.ts
lines 135-148). -/
def caughtErrorMessage : Thrown → String
  | .woo code _ _ => getErrorMessage code
  | .other _ => "Something went wrong. Please try again."

/-- handleToolCall (tools.ts lines 114-149): the try/catch boundary of
the executor — always returns a ToolResult, never propagates an
exception. -/
def handleToolCall (env : ToolEnv) (toolName : String) (input : ToolInput) :
    ToolResult :=
  match rawToolDispatch env toolName input with
  | .ok tr => tr
  | .error e => { success := false, error := some (caughtErrorMessage e) }

/-- Per-IP order-lookup attempt budget of the WordPress plugin
(part_009 line 44). -/
def RATE_LIMIT_ORDERS : Nat := 5

/-- check_rate_limit of the WordPress plugin (part_009 lines 734-749)
acting on the caller's transient cell: none models an absent transient
(get_transient returning false).  Returns whether the call is allowed
together with the updated cell; a denied call leaves the cell
unchanged. -/
def check_rate_limit (attempts : Option Nat) : Bool × Option Nat :=
  match attempts with
  | none => (true, some 1)
  | some n =>
    if RATE_LIMIT_ORDERS ≤ n then (false, some n) else (true, some (n + 1))

/-- lookup_order, the orders/lookup REST handler of the WordPress
plugin (part_009 lines 334-405), composed with the error translation of
woocommerce.ts customApiRequest (lines 76-83), which surfaces a
WP_Error body to the Next.js side as WooCommerceError(message, code,
httpStatus).  The order store behind wc_get_order is a list of
(order number, billing email, order) rows; the caller's per-IP
rate-limit transient is threaded explicitly and returned as the second
component.  The request email is lowercased on entry (line 336) and the
billing email before comparison (line 364), so the email match is
case-insensitive; the no-such-order branch (lines 351-361) and the
email-mismatch branch (lines 363-375) return the same order_not_found
WP_Error.  The IP extraction and the WP_DEBUG-only logging of failed
attempts have no effect on the response and are omitted. -/
def lookup_order (db : List (String × String × Order)) (attempts : Option Nat)
    (req : OrderLookupRequest) : Except Thrown Order × Option Nat :=
  let email := jsLowerStr req.email
  match check_rate_limit attempts with
  | (false, a) =>
    (.error (.woo "rate_limit" "Too many attempts. Please try again later." 429), a)
  | (true, a) =>
    match db.find? (fun r => r.1 == req.order_number) with
    | none =>
      (.error (.woo "order_not_found" "Order not found. Please check your order number and email." 404), a)
    | some r =>
      if jsLowerStr r.2.1 = email then (.ok r.2.2, a)
      else
        (.error (.woo "order_not_found" "Order not found. Please check your order number and email." 404), a)

/-! ### Agentic orchestration loop (createChatStreamWithTools)

The SSE-producing ReadableStream of the chat endpoint is embedded as a
function from a script of completion-call outcomes (the streamed model
turns, one per call the loop makes, indexed by call number) and a tool
executor to the list of wire events it enqueues, together with the logs
the claims need: the messages argument of every completion call and the
final conversation history. -/

structure ChatMessage where
  role : String
  content : String
deriving DecidableEq, Repr

/-- Conversation entry in Anthropic MessageParam form, as built by the
loop: a plain text turn, an assistant tool_use block, or a user
tool_result block. -/
inductive AMsg where
  | plain (role : String) (content : String)
  | assistantToolUse (id name : String) (input : ToolInput)
  | userToolResult (tool_use_id : String) (content : String)
deriving DecidableEq, Repr

structure ToolUse where
  id : String
  name : String
  input : ToolInput
deriving DecidableEq, Repr

/-- Result of one streamed completion call (anthropic.ts
createStreamingCompletion / the streamContinuation helper): the text
deltas in arrival order, the complete tool_use blocks of the final
message, and the stop reason. -/
structure StreamResult where
  texts : List String
  toolUses : List ToolUse
  stopReason : Option String
deriving DecidableEq, Repr

/-- A completion call either yields a StreamResult or throws after
having streamed some text deltas; the thrown error is an
AnthropicError (whose message reaches the client) or anything else
(mapped to the generic message). -/
inductive StreamFailure where
  | anthropic (message : String)
  | other (tag : String)
deriving DecidableEq, Repr

inductive CallOutcome where
  | ok (r : StreamResult)
  | err (preTexts : List String) (e : StreamFailure)
deriving DecidableEq, Repr

/-- Message of the catch clause of createChatStreamWithTools (part_003
lines 246-255). -/
def streamFailureMessage : StreamFailure → String
  | .anthropic m => m
  | .other _ => "An unexpected error occurred"

/-- Provenance bookkeeping of the embedding (not on the wire): whether
a tool_result event was produced while processing the tool uses of a
loop-top completion call or those of a continuation call. -/
inductive EvOrigin where
  | firstCall
  | continuation
deriving DecidableEq, Repr

/-- Wire events of the outbound SSE stream (part_003; data payload of
tool_result elided, display retained). -/
inductive Ev where
  | text (content : String)
  | toolStart (tool : String)
  | toolResult (origin : EvOrigin) (tool : String) (display : String)
  | error (message : String)
  | done
deriving DecidableEq, Repr

def isTerminalEv : Ev → Bool
  | .error _ => true
  | .done => true
  | _ => false

/-- Stand-in for JSON.stringify(toolResult) when the synthesized tool
result turn is appended to the conversation (an injective rendering;
its exact shape is never inspected by the loop). -/
def encodeToolResult (tr : ToolResult) : String :=
  "toolresult:success=" ++ (if tr.success then "true" else "false")
    ++ ";error=" ++ tr.error.getD "" ++ ";display=" ++ tr.display.getD ""

/-- MAX_TOOL_ITERATIONS (part_003 line 19). -/
def MAX_TOOL_ITERATIONS : Nat := 5

structure LoopState where
  events : List Ev
  calls : List (EvOrigin × List AMsg)
  conv : List AMsg
  errored : Bool
deriving Repr

/-- Tool-processing loop shared by part_003 lines 141-183 (loop-top
tool uses) and lines 202-240 (continuation tool uses): execute each
tool, emit a tool_result event when the result has a truthy display,
and append the assistant tool_use turn and the user tool_result turn to
the conversation. -/
def execToolUses (exec : ToolUse → ToolResult) (origin : EvOrigin) :
    LoopState → List ToolUse → LoopState
  | st, [] => st
  | st, tu :: rest =>
    let tr := exec tu
    execToolUses exec origin
      { st with
        events := st.events ++ (match tr.display with
          | some d => if d.isEmpty then [] else [Ev.toolResult origin tu.name d]
          | none => [])
        conv := st.conv ++ [AMsg.assistantToolUse tu.id tu.name tu.input,
          AMsg.userToolResult tu.id (encodeToolResult tr)] } rest

/-- Events enqueued while one loop-top completion call streams: every
text delta immediately, then (after the final message is available) one
tool_start per complete tool use, via the onToolUse callback
(anthropic.ts lines 106-113, part_003 lines 125-132). -/
def firstCallEvents (r : StreamResult) : List Ev :=
  r.texts.map Ev.text ++ r.toolUses.map (fun tu => Ev.toolStart tu.name)

/-- Events enqueued while a continuation call streams: text deltas
only — streamContinuation (part_003 lines 263-318) forwards no
tool_start notifications. -/
def continuationEvents (r : StreamResult) : List Ev :=
  r.texts.map Ev.text

/-- The agentic while loop of part_003 lines 108-241.  fuel is the
remaining iteration budget, k the index of the next completion call in
the script; topArg is the messages argument of every loop-top call
(always rebuilt from initialMessages, part_003 lines 112-118). -/
def loopGo (script : Nat → CallOutcome) (exec : ToolUse → ToolResult)
    (topArg : List AMsg) : Nat → Nat → LoopState → LoopState
  | 0, _, st => st
  | fuel + 1, k, st =>
    match script k with
    | .err ts e =>
      { st with calls := st.calls ++ [(EvOrigin.firstCall, topArg)]
                events := st.events ++ ts.map Ev.text
                  ++ [Ev.error (streamFailureMessage e)]
                errored := true }
    | .ok r1 =>
      let st1 := { st with calls := st.calls ++ [(EvOrigin.firstCall, topArg)]
                           events := st.events ++ firstCallEvents r1 }
      if r1.toolUses.isEmpty ∨ r1.stopReason ≠ some "tool_use" then st1
      else
        let st2 := execToolUses exec EvOrigin.firstCall st1 r1.toolUses
        match script (k + 1) with
        | .err ts e =>
          { st2 with calls := st2.calls ++ [(EvOrigin.continuation, st2.conv)]
                     events := st2.events ++ ts.map Ev.text
                       ++ [Ev.error (streamFailureMessage e)]
                     errored := true }
        | .ok r2 =>
          let st3 := { st2 with
            calls := st2.calls ++ [(EvOrigin.continuation, st2.conv)]
            events := st2.events ++ continuationEvents r2 }
          if r2.toolUses.isEmpty ∨ r2.stopReason ≠ some "tool_use" then st3
          else loopGo script exec topArg fuel (k + 2)
            (execToolUses exec EvOrigin.continuation st3 r2.toolUses)

/-- The messages argument of every loop-top completion call (part_003
lines 112-118): initialMessages.slice(0, -1) concat a copy of the last
element — i.e. the original caller-supplied history. -/
def sliceConcat (msgs : List ChatMessage) : List ChatMessage :=
  msgs.dropLast ++ (match msgs.getLast? with
                    | some m => [⟨m.role, m.content⟩]
                    | none => [])

/-- createChatStreamWithTools (part_003 lines 88-258): the full event
stream of one request.  An empty initialMessages list makes the JS code
dereference undefined inside the try block, which the catch maps to a
single generic error event (the route handler rejects empty message
lists before ever reaching this point). -/
def createChatStreamWithTools (script : Nat → CallOutcome)
    (exec : ToolUse → ToolResult) (initialMessages : List ChatMessage) :
    LoopState :=
  if initialMessages.isEmpty then
    { events := [Ev.error "An unexpected error occurred"], calls := [],
      conv := [], errored := true }
  else
    let conv0 := initialMessages.map (fun m => AMsg.plain m.role m.content)
    let topArg := (sliceConcat initialMessages).map
      (fun m => AMsg.plain m.role m.content)
    let st := loopGo script exec topArg MAX_TOOL_ITERATIONS 0
      { events := [], calls := [], conv := conv0, errored := false }
    if st.errored then st else { st with events := st.events ++ [Ev.done] }

/-! ### Predicates and concrete material used by the theorems -/

/-- The mapped Anthropic form of a caller-supplied history. -/
def plainMsgs (msgs : List ChatMessage) : List AMsg :=
  msgs.map (fun m => AMsg.plain m.role m.content)

/-- The stream has exactly one terminal event (done or error), it is
the last event, and no event follows it. -/
def OneTerminalLast (l : List Ev) : Prop :=
  ∃ pre t, l = pre ++ [t] ∧ isTerminalEv t = true ∧
    ∀ e ∈ pre, isTerminalEv e = false

/-- Every tool_result event produced while processing the tool uses of
a loop-top completion call is preceded in the stream by a tool_start
event with the same tool name. -/
def FirstCallResultCovered (l : List Ev) : Prop :=
  ∀ pre tool d post,
    l = pre ++ Ev.toolResult EvOrigin.firstCall tool d :: post →
    Ev.toolStart tool ∈ pre

/-- Auxiliary: every firstCall tool_result inside the batch b has its
tool_start either in the context ctx or earlier in b. -/
def CoveredFromCtx (ctx b : List Ev) : Prop :=
  ∀ pre tool d post,
    b = pre ++ Ev.toolResult EvOrigin.firstCall tool d :: post →
    Ev.toolStart tool ∈ ctx ++ pre

/-- Closed form of the events appended by execToolUses. -/
def toolResultEvents (exec : ToolUse → ToolResult) (origin : EvOrigin)
    (tus : List ToolUse) : List Ev :=
  tus.foldr (fun tu acc =>
    (match (exec tu).display with
     | some d => if d.isEmpty then [] else [Ev.toolResult origin tu.name d]
     | none => []) ++ acc) []

/-- Closed form of the conversation turns appended by execToolUses. -/
def toolConvPairs (exec : ToolUse → ToolResult) (tus : List ToolUse) : List AMsg :=
  tus.foldr (fun tu acc =>
    AMsg.assistantToolUse tu.id tu.name tu.input ::
      AMsg.userToolResult tu.id (encodeToolResult (exec tu)) :: acc) []

/-- A conversation segment consisting of adjacent pairs: the model's
tool-invocation turn immediately followed by the synthesized
tool-result turn carrying the same invocation id. -/
inductive ToolTurnPairs : List AMsg → Prop where
  | nil : ToolTurnPairs []
  | cons (id name : String) (input : ToolInput) (content : String)
      (rest : List AMsg) : ToolTurnPairs rest →
      ToolTurnPairs (AMsg.assistantToolUse id name input ::
        AMsg.userToolResult id content :: rest)

/-- Tool executor used by the concrete loop runs: every tool succeeds
with a display string. -/
def chatExecDisplay : ToolUse → ToolResult :=
  fun _ => { success := true, display := some "d" }

/-- One-message caller history used by the concrete loop runs. -/
def chatMsgsOne : List ChatMessage := [⟨"user", "hi"⟩]

/-- Script in which every completion call requests a tool and stops
with tool_use. -/
def scriptAllTools : Nat → CallOutcome :=
  fun _ => .ok ⟨[], [⟨"i", "search_products", {}⟩], some "tool_use"⟩

/-- Script driving two full loop iterations: the first call and its
continuation both request tools, the second iteration's continuation
ends the turn. -/
def scriptTwoRounds : Nat → CallOutcome := fun k =>
  if k = 0 then .ok ⟨["Hello"], [⟨"id0", "search_products", {}⟩], some "tool_use"⟩
  else if k = 1 then .ok ⟨[], [⟨"id1", "lookup_order", {}⟩], some "tool_use"⟩
  else if k = 2 then .ok ⟨[], [⟨"id2", "check_availability", {}⟩], some "tool_use"⟩
  else .ok ⟨["bye"], [], some "end_turn"⟩

/-- Script of a single turn with one tool use, whose continuation ends
the conversation. -/
def scriptOneTool : Nat → CallOutcome := fun k =>
  if k = 0 then .ok ⟨[], [⟨"id0", "search_products", {}⟩], some "tool_use"⟩
  else .ok ⟨[], [], some "end_turn"⟩

/-- The clock at local noon of 2026-01-15 (a Thursday), the reference
date the spec's examples use. -/
def clockJan15 : Clock := ⟨daysFromCivilMonth 2026 1 + 14, 720⟩

/-- The clock at local noon of 2026-01-17, a Saturday. -/
def clockSat : Clock := ⟨daysFromCivilMonth 2026 1 + 16, 720⟩

/-- Backend environment whose collaborators all succeed trivially; the
order collaborator is the embedded plugin endpoint over the given store
and rate-limit transient state. -/
def envQuiet (orders : List (String × String × Order))
    (attempts : Option Nat) : ToolEnv :=
  { clock := clockJan15
    wordpressUrl := "https://rentagun.com"
    searchProducts := fun _ => .ok []
    getProducts := fun _ => .ok { products := [] }
    checkAvailability := fun _ => .ok { available := true }
    lookupOrder := fun req => (lookup_order orders attempts req).1 }

/-- Backend environment whose order collaborator throws a
WooCommerceError. -/
def envOrderThrows : ToolEnv :=
  { envQuiet [] none with
    lookupOrder := fun _ => .error (.woo "connection_error" "fetch failed" 500) }

/-- Order fixture for the anti-enumeration witness. -/
def orderFixture : Order :=
  { order_number := "5682", status := "shipped", line_items := [⟨"Glock 19"⟩] }

/-- Order store fixture: one order, number 5682, billing email
real@x.com. -/
def orderDbFixture : List (String × String × Order) :=
  [("5682", "real@x.com", orderFixture)]

/-! ### Theorems

Supporting lemmas first, then one theorem per claim (with witnesses and
counterexamples where required). -/

theorem charToNat_ofNat_valid (n : Nat) (h : n.isValidChar) :
    (Char.ofNat n).toNat = n := by
  rw [Char.ofNat, dif_pos h]; rfl

theorem jsLowerChar_toNat_of_upper (c : Char)
    (h : 65 ≤ c.toNat ∧ c.toNat ≤ 90) :
    (jsLowerChar c).toNat = c.toNat + 32 := by
  unfold jsLowerChar
  rw [if_pos h]
  exact charToNat_ofNat_valid _ (Or.inl (by omega))

theorem jsLowerChar_idem (c : Char) :
    jsLowerChar (jsLowerChar c) = jsLowerChar c := by
  by_cases h : 65 ≤ c.toNat ∧ c.toNat ≤ 90
  · have ht := jsLowerChar_toNat_of_upper c h
    conv_lhs => rw [jsLowerChar]
    rw [if_neg (by rw [ht]; omega)]
  · have hc : jsLowerChar c = c := by unfold jsLowerChar; rw [if_neg h]
    rw [hc]
    exact hc

theorem isSpaceChar_jsLowerChar (c : Char) :
    isSpaceChar (jsLowerChar c) = isSpaceChar c := by
  by_cases h : 65 ≤ c.toNat ∧ c.toNat ≤ 90
  · have ht := jsLowerChar_toNat_of_upper c h
    unfold isSpaceChar
    rw [ht, decide_eq_decide]
    omega
  · have hc : jsLowerChar c = c := by unfold jsLowerChar; rw [if_neg h]
    rw [hc]

theorem dropWhile_dropWhile_self {α : Type} (p : α → Bool) (l : List α) :
    (l.dropWhile p).dropWhile p = l.dropWhile p := by
  induction l with
  | nil => simp
  | cons c t ih =>
    by_cases hc : p c
    · rw [List.dropWhile_cons, if_pos hc]
      exact ih
    · rw [List.dropWhile_cons, if_neg hc, List.dropWhile_cons, if_neg hc]

theorem map_dropWhile_comm {α : Type} (f : α → α) (p : α → Bool)
    (hf : ∀ c, p (f c) = p c) (l : List α) :
    (l.map f).dropWhile p = (l.dropWhile p).map f := by
  induction l with
  | nil => simp
  | cons c t ih =>
    by_cases hc : p c
    · rw [List.map_cons, List.dropWhile_cons, if_pos (by rw [hf]; exact hc),
        List.dropWhile_cons, if_pos hc, ih]
    · rw [List.map_cons, List.dropWhile_cons, if_neg (by rw [hf]; exact hc),
        List.dropWhile_cons, if_neg hc, List.map_cons]

theorem take_length_append {α : Type} (a b : List α) :
    (a ++ b).take a.length = a := by
  induction a with
  | nil => simp
  | cons c t ih => simp [ih]

theorem dropTrailing_eq_take (p : Char → Bool) (l : List Char) :
    ∃ k, dropTrailing p l = l.take k := by
  have hgen : ∀ d t : List Char, l = d ++ t → dropTrailing p l = d →
      dropTrailing p l = l.take d.length := by
    intro d t h1 h2
    rw [h2]
    conv_rhs => rw [h1]
    rw [take_length_append]
  refine ⟨(l.reverse.dropWhile p).reverse.length, ?_⟩
  apply hgen _ ((l.reverse.takeWhile p).reverse)
  · have := congrArg List.reverse (List.takeWhile_append_dropWhile (p := p) (l := l.reverse))
    rw [List.reverse_append, List.reverse_reverse] at this
    exact this.symm
  · rfl

theorem dropWhile_take_of_self (p : Char → Bool) (l : List Char)
    (hl : l.dropWhile p = l) (k : Nat) :
    (l.take k).dropWhile p = l.take k := by
  cases l with
  | nil => simp
  | cons c t =>
    have hc : p c = false := by
      by_cases hc' : p c
      · exfalso
        rw [List.dropWhile_cons, if_pos hc'] at hl
        have h1 := (List.dropWhile_sublist (l := t) p).length_le
        have h2 := congrArg List.length hl
        simp at h2
        omega
      · exact eq_false_of_ne_true hc'
    cases k with
    | zero => simp
    | succ k =>
      rw [List.take_succ_cons, List.dropWhile_cons, if_neg (by simp [hc])]

theorem trimChars_idem (l : List Char) :
    trimChars (trimChars l) = trimChars l := by
  unfold trimChars
  have hy : (l.dropWhile isSpaceChar).dropWhile isSpaceChar
      = l.dropWhile isSpaceChar := dropWhile_dropWhile_self _ l
  obtain ⟨k, hk⟩ := dropTrailing_eq_take isSpaceChar (l.dropWhile isSpaceChar)
  have h1 : (dropTrailing isSpaceChar (l.dropWhile isSpaceChar)).dropWhile isSpaceChar
      = dropTrailing isSpaceChar (l.dropWhile isSpaceChar) := by
    rw [hk]
    exact dropWhile_take_of_self _ _ hy k
  rw [h1]
  unfold dropTrailing
  rw [List.reverse_reverse, dropWhile_dropWhile_self]

theorem dropTrailing_map_comm (l : List Char) :
    dropTrailing isSpaceChar (l.map jsLowerChar)
      = (dropTrailing isSpaceChar l).map jsLowerChar := by
  unfold dropTrailing
  rw [← List.map_reverse, map_dropWhile_comm _ _ isSpaceChar_jsLowerChar,
    List.map_reverse]

theorem trimChars_map_comm (l : List Char) :
    trimChars (l.map jsLowerChar) = (trimChars l).map jsLowerChar := by
  unfold trimChars
  rw [map_dropWhile_comm _ _ isSpaceChar_jsLowerChar, dropTrailing_map_comm]

theorem map_jsLowerChar_idem (l : List Char) :
    (l.map jsLowerChar).map jsLowerChar = l.map jsLowerChar := by
  rw [List.map_map]
  exact List.map_congr_left (fun c _ => jsLowerChar_idem c)

theorem normalizeChars_idem (l : List Char) :
    normalizeChars (normalizeChars l) = normalizeChars l := by
  unfold normalizeChars
  rw [← trimChars_map_comm, map_jsLowerChar_idem, trimChars_idem]

/-- C10: the date parser is invariant under leading/trailing whitespace
and letter case: parsing any string gives the same result as parsing
its lowercased, trimmed form, for every state of the ambient clock. -/
theorem parseNaturalDate_normalize_invariant (s : String) (now : Clock) :
    parseNaturalDate s now
      = parseNaturalDate (String.mk (normalizeChars s.data)) now := by
  unfold parseNaturalDate
  show parseNorm (normalizeChars s.data) now
    = parseNorm (normalizeChars (normalizeChars s.data)) now
  rw [normalizeChars_idem]

/-- C5 (amended): the parser is deterministic given the ambient clock's
current day — all its internal clock reads (startOfDay and the repeated
getFullYear calls) collapse to functions of the clock's day, so two
calls on the same input under clocks showing the same local day return
identical results. -/
theorem parseNaturalDate_deterministic_given_day (input : String)
    (n₁ n₂ : Clock) (h : n₁.days = n₂.days) :
    parseNaturalDate input n₁ = parseNaturalDate input n₂ := by
  cases n₁ with
  | mk d₁ m₁ =>
    cases n₂ with
    | mk d₂ m₂ =>
      simp only at h
      subst h
      rfl

/-- Witness for the C5 determinism theorem at a concrete input: two
clocks on 2026-01-15 differing only in the time of day. -/
theorem parseNaturalDate_deterministic_witness :
    parseNaturalDate "next week" ⟨daysFromCivilMonth 2026 1 + 14, 0⟩
      = parseNaturalDate "next week" ⟨daysFromCivilMonth 2026 1 + 14, 720⟩ :=
  parseNaturalDate_deterministic_given_day "next week" _ _ rfl

/-- C5 (counterexample): the claim that no resolution path reads a
global clock internally is false — on input "january 20" the executed
path of dates.ts evaluates new Date() twice (line 41 and line 247),
not zero times as an injected-reference-date contract would require. -/
theorem parseNaturalDate_reads_clock_counterexample :
    parseClockReads "january 20" ⟨daysFromCivilMonth 2026 1 + 14, 720⟩ = 2 ∧
      ¬ parseClockReads "january 20" ⟨daysFromCivilMonth 2026 1 + 14, 720⟩ = 0 := by
  constructor
  · decide
  · decide

/-- C6 (code bug evaluation): on a Saturday reference day (2026-01-17)
the input "this weekend" is parsed successfully into the reversed range
startDate 2026-01-24, endDate 2026-01-18 — nextSaturday of a Saturday
is a week away while nextSunday is tomorrow — violating the
startDate ≤ endDate invariant the specification requires of every
successful parse. -/
theorem parseNaturalDate_this_weekend_reversed :
    parseNaturalDate "this weekend" clockSat
      = { success := true, startDate := some "2026-01-24",
          endDate := some "2026-01-18", error := none } ∧
    nextSundayOf (clockToday clockSat) < nextSaturdayOf (clockToday clockSat) := by
  constructor
  · decide
  · decide

/-- C7 (counterexample): with reference day 2026-01-15, parsing
"december 20 to january 5" resolves the end endpoint to 2026-01-05 — a
day strictly before the reference date that is returned un-rolled,
because the code applies year rollover to the endpoints only when the
start endpoint is past; the claimed independent per-endpoint rollover
would have produced 2027-01-05. -/
theorem parseNaturalDate_end_not_rolled_counterexample :
    parseNaturalDate "december 20 to january 5" clockJan15
      = { success := true, startDate := some "2026-12-20",
          endDate := some "2026-01-05", error := none } ∧
    jsMakeDate 2026 0 5 < clockToday clockJan15 := by
  constructor
  · decide
  · decide

/-- C7 (amended): year rollover in the range branch is gated on the
start endpoint — when the resolved start is not before the reference
date neither endpoint is rolled (even an end endpoint in the past) and
the range is returned as is; when the start is past, each endpoint is
independently rolled by addYearIfPast and past-date rejection of the
start runs after this; in particular, with reference date 2026-01-15,
"december 20" resolves to start 2026-12-20 (not 2025, not rejected) and
"january 10-20" rolls only its past start endpoint, yielding
2027-01-10 to 2026-01-20. -/
theorem resolveRange_rollover_start_gated :
    (∀ today s e : Int, ¬ s < today → resolveRange s e today = dateOk s e) ∧
    (∀ today s e : Int, s < today → ¬ addYearIfPast s today < today →
      resolveRange s e today
        = dateOk (addYearIfPast s today) (addYearIfPast e today)) ∧
    (∀ today s e : Int, s < today → addYearIfPast s today < today →
      resolveRange s e today = pastErrorResult) ∧
    parseNaturalDate "december 20" clockJan15
      = { success := true, startDate := some "2026-12-20",
          endDate := some "2026-12-26", error := none } ∧
    parseNaturalDate "january 10-20" clockJan15
      = { success := true, startDate := some "2027-01-10",
          endDate := some "2026-01-20", error := none } := by
  refine ⟨?_, ?_, ?_, by decide, by decide⟩
  · intro today s e h
    unfold resolveRange
    rw [if_neg h, if_neg h, if_neg h]
  · intro today s e h h2
    unfold resolveRange
    rw [if_pos h, if_pos h, if_neg h2]
  · intro today s e h h2
    unfold resolveRange
    rw [if_pos h, if_pos h, if_pos h2]

/-- Witness for the C7 amended theorem, applying each conditional
conjunct at concrete dates. -/
theorem resolveRange_rollover_witness :
    resolveRange 200 100 100 = dateOk 200 100 ∧
    resolveRange 50 60 100
      = dateOk (addYearIfPast 50 100) (addYearIfPast 60 100) ∧
    resolveRange 0 5 1000 = pastErrorResult :=
  ⟨resolveRange_rollover_start_gated.1 100 200 100 (by decide),
   resolveRange_rollover_start_gated.2.1 100 50 60 (by decide) (by decide),
   resolveRange_rollover_start_gated.2.2.1 1000 0 5 (by decide) (by decide)⟩

theorem handleProductSearch_ok_success (env : ToolEnv) (input : ToolInput)
    (tr : ToolResult) (h : handleProductSearch env input = .ok tr) :
    tr.success = true := by
  simp only [handleProductSearch] at h
  repeat' split at h
  all_goals try simp at h
  all_goals subst h
  all_goals rfl

theorem resolveRequestDates_inr_error (env : ToolEnv) (input : ToolInput)
    (r : ToolResult) (h : resolveRequestDates env input = .inr r) :
    r.success = false ∧ r.error.isSome = true := by
  simp only [resolveRequestDates] at h
  repeat' split at h
  all_goals try simp at h
  all_goals subst h
  all_goals exact ⟨rfl, rfl⟩

theorem handleAvailabilityCheck_ok_error (env : ToolEnv) (input : ToolInput)
    (tr : ToolResult) (h : handleAvailabilityCheck env input = .ok tr) :
    tr.success = false → tr.error.isSome = true := by
  simp only [handleAvailabilityCheck] at h
  split at h
  · rename_i r hr
    rw [Except.ok.injEq] at h
    subst h
    intro _
    exact (resolveRequestDates_inr_error env input _ hr).2
  · repeat' split at h
    all_goals try simp at h
    all_goals subst h
    all_goals intro hs
    all_goals first | rfl | simp at hs

theorem handleOrderLookup_ok_error (env : ToolEnv) (input : ToolInput)
    (tr : ToolResult) (h : handleOrderLookup env input = .ok tr) :
    tr.success = false → tr.error.isSome = true := by
  simp only [handleOrderLookup] at h
  repeat' split at h
  all_goals try simp at h
  all_goals subst h
  all_goals intro hs
  all_goals first | rfl | simp at hs

/-- C8: the tool executor never lets an exception cross its boundary —
every thrown backend error is caught and mapped to a success=false
ToolResult carrying the user-safe message of the catch clause, an
unknown tool name produces a success=false validation result rather
than a crash or stream error, and every failed ToolResult carries an
error message. -/
theorem handleToolCall_contains_errors (env : ToolEnv) (toolName : String)
    (input : ToolInput) :
    (∀ e, rawToolDispatch env toolName input = .error e →
      handleToolCall env toolName input
        = { success := false, error := some (caughtErrorMessage e) }) ∧
    (¬ (toolName = "search_products" ∨ toolName = "check_availability" ∨
        toolName = "lookup_order") →
      handleToolCall env toolName input
        = { success := false, error := some ("Unknown tool: " ++ toolName) }) ∧
    ((handleToolCall env toolName input).success = false →
      (handleToolCall env toolName input).error.isSome = true) := by
  refine ⟨?_, ?_, ?_⟩
  · intro e h
    unfold handleToolCall
    rw [h]
  · intro hn
    push_neg at hn
    unfold handleToolCall rawToolDispatch
    rw [if_neg hn.1, if_neg hn.2.1, if_neg hn.2.2]
  · intro hs
    cases hd : rawToolDispatch env toolName input with
    | error e =>
      have hres : handleToolCall env toolName input
          = { success := false, error := some (caughtErrorMessage e) } := by
        unfold handleToolCall
        rw [hd]
      rw [hres]
      rfl
    | ok tr =>
      have hres : handleToolCall env toolName input = tr := by
        unfold handleToolCall
        rw [hd]
      rw [hres] at hs ⊢
      unfold rawToolDispatch at hd
      split at hd
      · have := handleProductSearch_ok_success env input tr hd
        rw [this] at hs
        simp at hs
      · split at hd
        · exact handleAvailabilityCheck_ok_error env input tr hd hs
        · split at hd
          · exact handleOrderLookup_ok_error env input tr hd hs
          · rw [Except.ok.injEq] at hd
            subst hd
            rfl

/-- Witness for C8: a backend that throws a WooCommerceError is mapped
to its user-safe message, and an unknown tool name yields the
validation failure. -/
theorem handleToolCall_contains_errors_witness :
    handleToolCall envOrderThrows "lookup_order"
        { order_number := some "5682", email := some "a@b.com" }
      = { success := false,
          error := some "I'm having trouble connecting to our system. Please try again." } ∧
    handleToolCall (envQuiet [] none) "frobnicate" {}
      = { success := false, error := some "Unknown tool: frobnicate" } :=
  ⟨(handleToolCall_contains_errors envOrderThrows "lookup_order"
      { order_number := some "5682", email := some "a@b.com" }).1
      (.woo "connection_error" "fetch failed" 500) rfl,
   (handleToolCall_contains_errors (envQuiet [] none) "frobnicate" {}).2.1 (by decide)⟩

theorem lookup_order_rateLimited (db : List (String × String × Order))
    (attempts : Option Nat) (req : OrderLookupRequest)
    (h : (check_rate_limit attempts).1 = false) :
    (lookup_order db attempts req).1
      = .error (.woo "rate_limit" "Too many attempts. Please try again later." 429) := by
  rcases hc : check_rate_limit attempts with ⟨b, a⟩
  rw [hc] at h
  cases b with
  | true => simp at h
  | false => simp only [lookup_order, hc]

theorem lookup_order_notFound (db : List (String × String × Order))
    (attempts : Option Nat) (req : OrderLookupRequest)
    (hr : (check_rate_limit attempts).1 = true)
    (h : ∀ r ∈ db, r.1 = req.order_number →
      jsLowerStr r.2.1 ≠ jsLowerStr req.email) :
    (lookup_order db attempts req).1
      = .error (.woo "order_not_found" "Order not found. Please check your order number and email." 404) := by
  rcases hc : check_rate_limit attempts with ⟨b, a⟩
  rw [hc] at hr
  cases b with
  | false => simp at hr
  | true =>
    cases hf : db.find? (fun r => r.1 == req.order_number) with
    | none => simp only [lookup_order, hc, hf]
    | some r =>
      have hmem : r ∈ db := List.mem_of_find?_eq_some hf
      have hnum : r.1 = req.order_number := by
        simpa using List.find?_some hf
      simp only [lookup_order, hc, hf]
      rw [if_neg (h r hmem hnum)]

theorem handleToolCall_lookup_wooError (env : ToolEnv) (input : ToolInput)
    (code msg : String) (status : Nat)
    (hn : strTruthy input.order_number = true)
    (he : strTruthy input.email = true)
    (hl : env.lookupOrder
        { order_number := cleanOrderNumber (input.order_number.getD "")
          email := input.email.getD "" }
      = .error (.woo code msg status)) :
    handleToolCall env "lookup_order" input
      = { success := false, error := some (getErrorMessage code) } := by
  unfold handleToolCall rawToolDispatch
  rw [if_neg (by decide), if_neg (by decide), if_pos rfl]
  unfold handleOrderLookup
  rw [if_neg (by simp [hn, he]), hl]
  rfl

/-- C9: lookup_order fails fast when the order number or the email is
missing (or empty); and through the WordPress plugin's orders/lookup
handler, any two calls made from the same per-IP rate-limit state — one
with a nonexistent order number, one with an existing order number but
a mismatched email (the comparison is case-insensitive) — produce
byte-identical user-facing ToolResult payloads, so callers cannot
distinguish no-such-order from email-mismatch; when the state is not
rate-limited that common payload is the order-not-found message. -/
theorem lookup_order_anti_enumeration :
    (∀ (env : ToolEnv) (input : ToolInput),
      (¬ strTruthy input.order_number = true ∨ ¬ strTruthy input.email = true) →
      handleToolCall env "lookup_order" input
        = { success := false,
            error := some "I need both your order number and email address to look up your order." }) ∧
    (∀ (env : ToolEnv) (db : List (String × String × Order))
        (attempts : Option Nat) (n₁ e₁ n₂ e₂ : String),
      env.lookupOrder = (fun req => (lookup_order db attempts req).1) →
      strTruthy (some n₁) = true → strTruthy (some e₁) = true →
      strTruthy (some n₂) = true → strTruthy (some e₂) = true →
      (∀ r ∈ db, r.1 ≠ cleanOrderNumber n₁) →
      (∃ r ∈ db, r.1 = cleanOrderNumber n₂) →
      (∀ r ∈ db, r.1 = cleanOrderNumber n₂ → jsLowerStr r.2.1 ≠ jsLowerStr e₂) →
      (handleToolCall env "lookup_order" { order_number := some n₁, email := some e₁ }
        = handleToolCall env "lookup_order" { order_number := some n₂, email := some e₂ }) ∧
      ((check_rate_limit attempts).1 = true →
        handleToolCall env "lookup_order" { order_number := some n₁, email := some e₁ }
          = { success := false,
              error := some "I couldn't find that order. Please check your order number and email." })) := by
  constructor
  · intro env input h
    unfold handleToolCall rawToolDispatch
    rw [if_neg (by decide), if_neg (by decide), if_pos rfl]
    unfold handleOrderLookup
    rw [if_pos h]
  · intro env db attempts n₁ e₁ n₂ e₂ henv ht1 ht2 ht3 ht4 hno _hex hmis
    by_cases hrl : (check_rate_limit attempts).1 = true
    · have h1 : handleToolCall env "lookup_order"
          { order_number := some n₁, email := some e₁ }
          = { success := false,
              error := some "I couldn't find that order. Please check your order number and email." } := by
        apply handleToolCall_lookup_wooError env _ "order_not_found"
          "Order not found. Please check your order number and email." 404 ht1 ht2
        rw [henv]
        exact lookup_order_notFound db attempts _ hrl
          (fun r hr hn => absurd hn (hno r hr))
      have h2 : handleToolCall env "lookup_order"
          { order_number := some n₂, email := some e₂ }
          = { success := false,
              error := some "I couldn't find that order. Please check your order number and email." } := by
        apply handleToolCall_lookup_wooError env _ "order_not_found"
          "Order not found. Please check your order number and email." 404 ht3 ht4
        rw [henv]
        exact lookup_order_notFound db attempts _ hrl
          (fun r hr hn => hmis r hr hn)
      exact ⟨h1.trans h2.symm, fun _ => h1⟩
    · have hrl' : (check_rate_limit attempts).1 = false := by
        cases hb : (check_rate_limit attempts).1 with
        | true => exact absurd hb hrl
        | false => rfl
      have h1 : handleToolCall env "lookup_order"
          { order_number := some n₁, email := some e₁ }
          = { success := false,
              error := some "You've made too many requests. Please wait a moment and try again." } := by
        apply handleToolCall_lookup_wooError env _ "rate_limit"
          "Too many attempts. Please try again later." 429 ht1 ht2
        rw [henv]
        exact lookup_order_rateLimited db attempts _ hrl'
      have h2 : handleToolCall env "lookup_order"
          { order_number := some n₂, email := some e₂ }
          = { success := false,
              error := some "You've made too many requests. Please wait a moment and try again." } := by
        apply handleToolCall_lookup_wooError env _ "rate_limit"
          "Too many attempts. Please try again later." 429 ht3 ht4
        rw [henv]
        exact lookup_order_rateLimited db attempts _ hrl'
      exact ⟨h1.trans h2.symm, fun hc => absurd hc hrl⟩

/-- Witness for C9: against a one-order store in a fresh rate-limit
state, order 999999 (nonexistent) with a@b.com and order 5682
(existing) with wrong@email.com produce the same not-found ToolResult,
and a missing email fails fast. -/
theorem lookup_order_anti_enumeration_witness :
    handleToolCall (envQuiet orderDbFixture none) "lookup_order"
        { order_number := some "999999", email := some "a@b.com" }
      = handleToolCall (envQuiet orderDbFixture none) "lookup_order"
        { order_number := some "5682", email := some "wrong@email.com" } ∧
    handleToolCall (envQuiet orderDbFixture none) "lookup_order"
        { order_number := some "999999", email := some "a@b.com" }
      = { success := false,
          error := some "I couldn't find that order. Please check your order number and email." } ∧
    handleToolCall (envQuiet orderDbFixture none) "lookup_order"
        { order_number := some "5682" }
      = { success := false,
          error := some "I need both your order number and email address to look up your order." } := by
  have happ := lookup_order_anti_enumeration.2 (envQuiet orderDbFixture none)
    orderDbFixture none "999999" "a@b.com" "5682" "wrong@email.com" rfl
    (by decide) (by decide) (by decide) (by decide) (by decide) (by decide)
    (by decide)
  exact ⟨happ.1, happ.2 (by decide),
    lookup_order_anti_enumeration.1 (envQuiet orderDbFixture none)
      { order_number := some "5682" } (by decide)⟩

theorem toolResultEvents_cons (exec : ToolUse → ToolResult) (o : EvOrigin)
    (tu : ToolUse) (rest : List ToolUse) :
    toolResultEvents exec o (tu :: rest)
      = (match (exec tu).display with
         | some d => if d.isEmpty then [] else [Ev.toolResult o tu.name d]
         | none => []) ++ toolResultEvents exec o rest := rfl

theorem toolConvPairs_cons (exec : ToolUse → ToolResult) (tu : ToolUse)
    (rest : List ToolUse) :
    toolConvPairs exec (tu :: rest)
      = AMsg.assistantToolUse tu.id tu.name tu.input ::
        AMsg.userToolResult tu.id (encodeToolResult (exec tu)) ::
          toolConvPairs exec rest := rfl

theorem execToolUses_spec (exec : ToolUse → ToolResult) (o : EvOrigin)
    (tus : List ToolUse) : ∀ st : LoopState,
    execToolUses exec o st tus
      = { st with events := st.events ++ toolResultEvents exec o tus,
                  conv := st.conv ++ toolConvPairs exec tus } := by
  induction tus with
  | nil =>
    intro st
    simp [execToolUses, toolResultEvents, toolConvPairs]
  | cons tu rest ih =>
    intro st
    rw [execToolUses, ih, toolResultEvents_cons, toolConvPairs_cons]
    simp [List.append_assoc]

theorem mem_displayBatch (exec : ToolUse → ToolResult) (o : EvOrigin)
    (tu : ToolUse) (e : Ev)
    (h : e ∈ (match (exec tu).display with
      | some d => if d.isEmpty then [] else [Ev.toolResult o tu.name d]
      | none => [])) :
    ∃ d, e = Ev.toolResult o tu.name d := by
  cases hd : (exec tu).display with
  | none => rw [hd] at h; simp at h
  | some d =>
    rw [hd] at h
    by_cases hde : d.isEmpty
    · simp [hde] at h
    · simp [hde] at h
      exact ⟨d, h⟩

theorem mem_toolResultEvents (exec : ToolUse → ToolResult) (o : EvOrigin)
    (tus : List ToolUse) (e : Ev) (h : e ∈ toolResultEvents exec o tus) :
    ∃ tu ∈ tus, ∃ d, e = Ev.toolResult o tu.name d := by
  induction tus with
  | nil => simp [toolResultEvents] at h
  | cons tu rest ih =>
    rw [toolResultEvents_cons] at h
    rcases List.mem_append.mp h with h' | h'
    · obtain ⟨d, hd⟩ := mem_displayBatch exec o tu e h'
      exact ⟨tu, List.mem_cons_self _ _, d, hd⟩
    · obtain ⟨tu', htu', hd⟩ := ih h'
      exact ⟨tu', List.mem_cons_of_mem _ htu', hd⟩

theorem noTerm_append {l₁ l₂ : List Ev}
    (h₁ : ∀ e ∈ l₁, isTerminalEv e = false)
    (h₂ : ∀ e ∈ l₂, isTerminalEv e = false) :
    ∀ e ∈ l₁ ++ l₂, isTerminalEv e = false := by
  intro e he
  rcases List.mem_append.mp he with h | h
  · exact h₁ e h
  · exact h₂ e h

theorem noTerm_texts (ts : List String) :
    ∀ e ∈ ts.map Ev.text, isTerminalEv e = false := by
  intro e he
  obtain ⟨s, _, rfl⟩ := List.mem_map.mp he
  rfl

theorem noTerm_starts (tus : List ToolUse) :
    ∀ e ∈ tus.map (fun tu => Ev.toolStart tu.name), isTerminalEv e = false := by
  intro e he
  obtain ⟨tu, _, rfl⟩ := List.mem_map.mp he
  rfl

theorem noTerm_firstCallEvents (r : StreamResult) :
    ∀ e ∈ firstCallEvents r, isTerminalEv e = false :=
  noTerm_append (noTerm_texts r.texts) (noTerm_starts r.toolUses)

theorem noTerm_toolResultEvents (exec : ToolUse → ToolResult) (o : EvOrigin)
    (tus : List ToolUse) :
    ∀ e ∈ toolResultEvents exec o tus, isTerminalEv e = false := by
  intro e he
  obtain ⟨tu, _, d, rfl⟩ := mem_toolResultEvents exec o tus e he
  rfl

theorem noTerm_continuationEvents (r : StreamResult) :
    ∀ e ∈ continuationEvents r, isTerminalEv e = false :=
  noTerm_texts r.texts

theorem loopGo_terminal (script : Nat → CallOutcome) (exec : ToolUse → ToolResult)
    (topArg : List AMsg) : ∀ (fuel k : Nat) (st : LoopState),
    st.errored = false →
    (∀ e ∈ st.events, isTerminalEv e = false) →
    (((loopGo script exec topArg fuel k st).errored = false ∧
      ∀ e ∈ (loopGo script exec topArg fuel k st).events, isTerminalEv e = false) ∨
     ((loopGo script exec topArg fuel k st).errored = true ∧
      ∃ pre m, (loopGo script exec topArg fuel k st).events = pre ++ [Ev.error m] ∧
        ∀ e ∈ pre, isTerminalEv e = false)) := by
  intro fuel
  induction fuel with
  | zero =>
    intro k st h1 h2
    left
    exact ⟨h1, h2⟩
  | succ fuel ih =>
    intro k st h1 h2
    rw [loopGo]
    split
    next ts e heq =>
      right
      refine ⟨rfl, _, _, rfl, ?_⟩
      exact noTerm_append h2 (noTerm_texts ts)
    next r1 heq =>
      split
      next hg =>
        left
        exact ⟨h1, noTerm_append h2 (noTerm_firstCallEvents r1)⟩
      next hg =>
        dsimp only
        rw [execToolUses_spec]
        dsimp only
        split
        next ts e heq2 =>
          right
          refine ⟨rfl, _, _, rfl, ?_⟩
          refine noTerm_append (noTerm_append (noTerm_append h2
            (noTerm_firstCallEvents r1))
            (noTerm_toolResultEvents exec _ r1.toolUses)) (noTerm_texts ts)
        next r2 heq2 =>
          split
          next hg2 =>
            left
            refine ⟨h1, ?_⟩
            exact noTerm_append (noTerm_append (noTerm_append h2
              (noTerm_firstCallEvents r1))
              (noTerm_toolResultEvents exec _ r1.toolUses))
              (noTerm_continuationEvents r2)
          next hg2 =>
            apply ih
            · rw [execToolUses_spec]
              dsimp only
              exact h1
            · rw [execToolUses_spec]
              dsimp only
              exact noTerm_append (noTerm_append (noTerm_append (noTerm_append h2
                (noTerm_firstCallEvents r1))
                (noTerm_toolResultEvents exec _ r1.toolUses))
                (noTerm_continuationEvents r2))
                (noTerm_toolResultEvents exec _ r2.toolUses)

/-- C1: for every script of completion outcomes, tool executor and
caller history, the outbound event stream of createChatStreamWithTools
contains exactly one terminal event — one done or one error — it is the
last event of the stream, and no event follows it. -/
theorem chat_stream_exactly_one_terminal (script : Nat → CallOutcome)
    (exec : ToolUse → ToolResult) (msgs : List ChatMessage) :
    OneTerminalLast (createChatStreamWithTools script exec msgs).events := by
  unfold createChatStreamWithTools
  split
  next h =>
    exact ⟨[], Ev.error "An unexpected error occurred", rfl, rfl, by simp⟩
  next h =>
    dsimp only
    rcases loopGo_terminal script exec
        ((sliceConcat msgs).map (fun m => AMsg.plain m.role m.content))
        MAX_TOOL_ITERATIONS 0
        { events := [], calls := [],
          conv := msgs.map (fun m => AMsg.plain m.role m.content),
          errored := false }
        rfl (by simp) with ⟨he, hn⟩ | ⟨he, pre, m, hev, hn⟩
    · rw [if_neg (by simp [he])]
      exact ⟨_, Ev.done, rfl, rfl, hn⟩
    · rw [if_pos he]
      exact ⟨pre, Ev.error m, hev, rfl, hn⟩

set_option linter.unusedTactic false in
theorem loopGo_calls_length (script : Nat → CallOutcome)
    (exec : ToolUse → ToolResult) (topArg : List AMsg) :
    ∀ (fuel k : Nat) (st : LoopState),
    (loopGo script exec topArg fuel k st).calls.length
      ≤ st.calls.length + 2 * fuel := by
  intro fuel
  induction fuel with
  | zero =>
    intro k st
    simp [loopGo]
  | succ fuel ih =>
    intro k st
    rw [loopGo]
    split
    next =>
      dsimp only
      simp
      try omega
    next r1 heq =>
      split
      next hg =>
        dsimp only
        simp
        try omega
      next hg =>
        dsimp only
        rw [execToolUses_spec]
        dsimp only
        split
        next =>
          dsimp only
          simp
          try omega
        next r2 heq2 =>
          split
          next hg2 =>
            dsimp only
            simp
            try omega
          next hg2 =>
            refine le_trans (ih _ _) ?_
            rw [execToolUses_spec]
            dsimp only
            simp
            try omega

/-- C3 (amended): the loop is bounded by MAX_TOOL_ITERATIONS = 5
iterations, each of which makes up to two completion-client calls (the
loop-top streaming call and the continuation call), so a request makes
at most 10 round-trips — not 5; and when the run ends without a
completion failure (in particular on ceiling exhaustion with the model
still requesting tools), the stream ends with done, not error. -/
theorem chat_stream_call_budget (script : Nat → CallOutcome)
    (exec : ToolUse → ToolResult) (msgs : List ChatMessage) :
    (createChatStreamWithTools script exec msgs).calls.length
      ≤ 2 * MAX_TOOL_ITERATIONS ∧
    ((createChatStreamWithTools script exec msgs).errored = false →
      ∃ pre, (createChatStreamWithTools script exec msgs).events
        = pre ++ [Ev.done]) := by
  unfold createChatStreamWithTools
  split
  next h =>
    refine ⟨by simp [MAX_TOOL_ITERATIONS], fun hc => ?_⟩
    simp at hc
  next h =>
    dsimp only
    constructor
    · have hb := loopGo_calls_length script exec
        ((sliceConcat msgs).map (fun m => AMsg.plain m.role m.content))
        MAX_TOOL_ITERATIONS 0
        { events := [], calls := [],
          conv := msgs.map (fun m => AMsg.plain m.role m.content),
          errored := false }
      split <;> simpa using hb
    · split
      next h' =>
        intro he
        exact absurd h' (by rw [he]; simp)
      next h' =>
        intro _
        exact ⟨_, rfl⟩

/-- C3 (counterexample): a model that requests a tool on every turn
drives the loop to 10 completion-client calls in one request,
contradicting the claimed hard ceiling of 5 round-trips. -/
theorem chat_stream_ten_calls_counterexample :
    (createChatStreamWithTools scriptAllTools chatExecDisplay chatMsgsOne).calls.length
      = 10 ∧
    ¬ (createChatStreamWithTools scriptAllTools chatExecDisplay chatMsgsOne).calls.length
      ≤ 5 := by
  constructor
  · decide
  · decide

/-- Witness for the C3 amended theorem: the all-tools run ends without
an error, so the theorem yields its done-terminated stream. -/
theorem chat_stream_call_budget_witness :
    (createChatStreamWithTools scriptAllTools chatExecDisplay chatMsgsOne).calls.length
      ≤ 2 * MAX_TOOL_ITERATIONS ∧
    ∃ pre, (createChatStreamWithTools scriptAllTools chatExecDisplay chatMsgsOne).events
      = pre ++ [Ev.done] :=
  ⟨(chat_stream_call_budget scriptAllTools chatExecDisplay chatMsgsOne).1,
   (chat_stream_call_budget scriptAllTools chatExecDisplay chatMsgsOne).2 (by decide)⟩

theorem coveredFromCtx_of_no_results (ctx b : List Ev)
    (h : ∀ e ∈ b, ∀ t d, e ≠ Ev.toolResult EvOrigin.firstCall t d) :
    CoveredFromCtx ctx b := by
  intro pre t d post hb
  exfalso
  have hm : Ev.toolResult EvOrigin.firstCall t d ∈ b := by
    rw [hb]
    exact List.mem_append.mpr (Or.inr (List.mem_cons_self _ _))
  exact h _ hm t d rfl

theorem covered_append (l b : List Ev) (h1 : FirstCallResultCovered l)
    (h2 : CoveredFromCtx l b) : FirstCallResultCovered (l ++ b) := by
  intro pre t d post hb
  rcases List.append_eq_append_iff.mp hb with ⟨a', hpre, hbdec⟩ | ⟨c', hl, hdec⟩
  · subst hpre
    exact h2 a' t d post hbdec
  · cases c' with
    | nil =>
      rw [List.append_nil] at hl
      subst hl
      have := h2 [] t d post (by simpa using hdec.symm)
      simpa using this
    | cons x c'' =>
      rw [List.cons_append] at hdec
      injection hdec with hx hrest
      subst hx
      exact h1 pre t d c'' hl

theorem noResults_texts (ts : List String) :
    ∀ e ∈ ts.map Ev.text, ∀ t d, e ≠ Ev.toolResult EvOrigin.firstCall t d := by
  intro e he t d
  obtain ⟨s, _, rfl⟩ := List.mem_map.mp he
  simp

theorem noResults_firstCallEvents (r : StreamResult) :
    ∀ e ∈ firstCallEvents r, ∀ t d, e ≠ Ev.toolResult EvOrigin.firstCall t d := by
  intro e he t d
  rcases List.mem_append.mp he with h | h
  · exact noResults_texts r.texts e h t d
  · obtain ⟨tu, _, rfl⟩ := List.mem_map.mp h
    simp

theorem noResults_continuationEvents (r : StreamResult) :
    ∀ e ∈ continuationEvents r, ∀ t d, e ≠ Ev.toolResult EvOrigin.firstCall t d :=
  noResults_texts r.texts

theorem noResults_contResults (exec : ToolUse → ToolResult) (tus : List ToolUse) :
    ∀ e ∈ toolResultEvents exec EvOrigin.continuation tus,
      ∀ t d, e ≠ Ev.toolResult EvOrigin.firstCall t d := by
  intro e he t d
  obtain ⟨tu, _, d', rfl⟩ := mem_toolResultEvents exec _ tus e he
  simp

theorem noResults_error (m : String) :
    ∀ e ∈ [Ev.error m], ∀ t d, e ≠ Ev.toolResult EvOrigin.firstCall t d := by
  intro e he t d
  simp at he
  subst he
  simp

theorem noResults_done :
    ∀ e ∈ [Ev.done], ∀ t d, e ≠ Ev.toolResult EvOrigin.firstCall t d := by
  intro e he t d
  simp at he
  subst he
  simp

theorem coveredFromCtx_firstCall_results (l' : List Ev)
    (exec : ToolUse → ToolResult) (r1 : StreamResult) :
    CoveredFromCtx (l' ++ firstCallEvents r1)
      (toolResultEvents exec EvOrigin.firstCall r1.toolUses) := by
  intro pre t d post hb
  have hm : Ev.toolResult EvOrigin.firstCall t d
      ∈ toolResultEvents exec EvOrigin.firstCall r1.toolUses := by
    rw [hb]
    exact List.mem_append.mpr (Or.inr (List.mem_cons_self _ _))
  obtain ⟨tu, htu, d', heq⟩ := mem_toolResultEvents exec _ r1.toolUses _ hm
  have ht : t = tu.name := by
    injection heq with _ h2 _
  have hs : Ev.toolStart t ∈ firstCallEvents r1 := by
    apply List.mem_append.mpr
    right
    rw [ht]
    exact List.mem_map.mpr ⟨tu, htu, rfl⟩
  exact List.mem_append.mpr (Or.inl (List.mem_append.mpr (Or.inr hs)))

theorem loopGo_covered (script : Nat → CallOutcome) (exec : ToolUse → ToolResult)
    (topArg : List AMsg) : ∀ (fuel k : Nat) (st : LoopState),
    FirstCallResultCovered st.events →
    FirstCallResultCovered (loopGo script exec topArg fuel k st).events := by
  intro fuel
  induction fuel with
  | zero =>
    intro k st h
    exact h
  | succ fuel ih =>
    intro k st h
    rw [loopGo]
    split
    next ts e heq =>
      dsimp only
      exact covered_append _ _
        (covered_append _ _ h (coveredFromCtx_of_no_results _ _ (noResults_texts ts)))
        (coveredFromCtx_of_no_results _ _ (noResults_error _))
    next r1 heq =>
      split
      next hg =>
        dsimp only
        exact covered_append _ _ h
          (coveredFromCtx_of_no_results _ _ (noResults_firstCallEvents r1))
      next hg =>
        dsimp only
        rw [execToolUses_spec]
        dsimp only
        have hcov2 : FirstCallResultCovered
            (st.events ++ firstCallEvents r1
              ++ toolResultEvents exec EvOrigin.firstCall r1.toolUses) :=
          covered_append _ _
            (covered_append _ _ h
              (coveredFromCtx_of_no_results _ _ (noResults_firstCallEvents r1)))
            (coveredFromCtx_firstCall_results st.events exec r1)
        split
        next ts e heq2 =>
          dsimp only
          exact covered_append _ _
            (covered_append _ _ hcov2
              (coveredFromCtx_of_no_results _ _ (noResults_texts ts)))
            (coveredFromCtx_of_no_results _ _ (noResults_error _))
        next r2 heq2 =>
          split
          next hg2 =>
            dsimp only
            exact covered_append _ _ hcov2
              (coveredFromCtx_of_no_results _ _ (noResults_continuationEvents r2))
          next hg2 =>
            apply ih
            rw [execToolUses_spec]
            dsimp only
            exact covered_append _ _
              (covered_append _ _ hcov2
                (coveredFromCtx_of_no_results _ _ (noResults_continuationEvents r2)))
              (coveredFromCtx_of_no_results _ _ (noResults_contResults exec r2.toolUses))

/-- C2 (amended): tool_start events are emitted only by loop-top
completion turns (all of a turn's tool_starts are enqueued after its
text and before its tool_results), and every tool_result event that
originates from processing a loop-top turn's tool uses is preceded in
the stream by a tool_start bearing the same tool name.  Tool uses
returned by continuation calls, by contrast, yield tool_result events
with no preceding tool_start (see the C2 counterexample), and a tool
invocation yields a tool_result only when its result carries a
non-empty display string. -/
theorem chat_stream_firstCall_results_covered (script : Nat → CallOutcome)
    (exec : ToolUse → ToolResult) (msgs : List ChatMessage) :
    FirstCallResultCovered (createChatStreamWithTools script exec msgs).events := by
  unfold createChatStreamWithTools
  split
  next hmsgs =>
    intro pre t d post hb
    exfalso
    have hb' : ([Ev.error "An unexpected error occurred"] : List Ev)
        = pre ++ Ev.toolResult EvOrigin.firstCall t d :: post := hb
    have hm : Ev.toolResult EvOrigin.firstCall t d
        ∈ ([Ev.error "An unexpected error occurred"] : List Ev) := by
      rw [hb']
      exact List.mem_append.mpr (Or.inr (List.mem_cons_self _ _))
    simp at hm
  next hmsgs =>
    dsimp only
    have hcov := loopGo_covered script exec
      ((sliceConcat msgs).map (fun m => AMsg.plain m.role m.content))
      MAX_TOOL_ITERATIONS 0
      { events := [], calls := [],
        conv := msgs.map (fun m => AMsg.plain m.role m.content),
        errored := false }
      (by
        intro pre t d post hb
        exfalso
        simp at hb)
    split
    · exact hcov
    · exact covered_append _ _ hcov
        (coveredFromCtx_of_no_results _ _ noResults_done)

/-- Witness for the C2 amended theorem: in the one-tool run the single
first-call tool_result is indeed preceded by its tool_start. -/
theorem chat_stream_firstCall_results_covered_witness :
    Ev.toolStart "search_products"
      ∈ ([Ev.toolStart "search_products"] : List Ev) :=
  chat_stream_firstCall_results_covered scriptOneTool chatExecDisplay chatMsgsOne
    [Ev.toolStart "search_products"] "search_products" "d" [Ev.done] (by decide)

/-- C2 (counterexample): in a run whose continuation call also requests
a tool, the stream contains a tool_result for lookup_order although no
tool_start for lookup_order is ever emitted, and the stream terminates
with done rather than error — so a client-visible tool_result is not
always preceded by its tool_start. -/
theorem chat_stream_result_without_start_counterexample :
    Ev.toolResult EvOrigin.continuation "lookup_order" "d"
        ∈ (createChatStreamWithTools scriptTwoRounds chatExecDisplay chatMsgsOne).events ∧
    (∀ e ∈ (createChatStreamWithTools scriptTwoRounds chatExecDisplay chatMsgsOne).events,
      e ≠ Ev.toolStart "lookup_order") ∧
    (createChatStreamWithTools scriptTwoRounds chatExecDisplay chatMsgsOne).events.getLast?
      = some Ev.done := by
  refine ⟨by decide, by decide, by decide⟩

theorem toolTurnPairs_toolConvPairs (exec : ToolUse → ToolResult)
    (tus : List ToolUse) : ToolTurnPairs (toolConvPairs exec tus) := by
  induction tus with
  | nil => exact ToolTurnPairs.nil
  | cons tu rest ih =>
    rw [toolConvPairs_cons]
    exact ToolTurnPairs.cons _ _ _ _ _ ih

theorem toolTurnPairs_append {l₁ l₂ : List AMsg} (h₁ : ToolTurnPairs l₁)
    (h₂ : ToolTurnPairs l₂) : ToolTurnPairs (l₁ ++ l₂) := by
  induction h₁ with
  | nil => exact h₂
  | cons id name input content rest _ ih =>
    rw [List.cons_append, List.cons_append]
    exact ToolTurnPairs.cons _ _ _ _ _ ih

theorem toolConvPairs_ne_nil (exec : ToolUse → ToolResult)
    (tus : List ToolUse) (h : tus ≠ []) : toolConvPairs exec tus ≠ [] := by
  cases tus with
  | nil => exact absurd rfl h
  | cons tu rest =>
    rw [toolConvPairs_cons]
    simp

theorem sliceConcat_of_ne_nil (msgs : List ChatMessage) (h : msgs ≠ []) :
    sliceConcat msgs = msgs := by
  unfold sliceConcat
  rw [List.getLast?_eq_getLast msgs h]
  exact List.dropLast_append_getLast h

theorem loopGo_calls_shape (script : Nat → CallOutcome)
    (exec : ToolUse → ToolResult) (topArg conv0 : List AMsg) :
    ∀ (fuel k : Nat) (st : LoopState) (tail : List AMsg),
    st.conv = conv0 ++ tail → ToolTurnPairs tail →
    (∀ c ∈ st.calls, (c.1 = EvOrigin.firstCall → c.2 = topArg) ∧
      (c.1 = EvOrigin.continuation →
        ∃ t, t ≠ [] ∧ c.2 = conv0 ++ t ∧ ToolTurnPairs t)) →
    ((∀ c ∈ (loopGo script exec topArg fuel k st).calls,
        (c.1 = EvOrigin.firstCall → c.2 = topArg) ∧
        (c.1 = EvOrigin.continuation →
          ∃ t, t ≠ [] ∧ c.2 = conv0 ++ t ∧ ToolTurnPairs t)) ∧
      ∃ t, (loopGo script exec topArg fuel k st).conv = conv0 ++ t ∧
        ToolTurnPairs t) := by
  intro fuel
  induction fuel with
  | zero =>
    intro k st tail hconv hpairs hcalls
    exact ⟨hcalls, tail, hconv, hpairs⟩
  | succ fuel ih =>
    intro k st tail hconv hpairs hcalls
    have hcalls1 : ∀ c ∈ st.calls ++ [(EvOrigin.firstCall, topArg)],
        (c.1 = EvOrigin.firstCall → c.2 = topArg) ∧
        (c.1 = EvOrigin.continuation →
          ∃ t, t ≠ [] ∧ c.2 = conv0 ++ t ∧ ToolTurnPairs t) := by
      intro c hc
      rcases List.mem_append.mp hc with h' | h'
      · exact hcalls c h'
      · simp at h'
        subst h'
        exact ⟨fun _ => rfl, fun hk => by simp at hk⟩
    rw [loopGo]
    split
    next ts e heq =>
      dsimp only
      exact ⟨hcalls1, tail, hconv, hpairs⟩
    next r1 heq =>
      split
      next hg =>
        dsimp only
        exact ⟨hcalls1, tail, hconv, hpairs⟩
      next hg =>
        dsimp only
        rw [execToolUses_spec]
        dsimp only
        have htus : r1.toolUses ≠ [] := by
          intro hnil
          exact hg (Or.inl (by rw [hnil]; rfl))
        have hconv2 : st.conv ++ toolConvPairs exec r1.toolUses
            = conv0 ++ (tail ++ toolConvPairs exec r1.toolUses) := by
          rw [hconv, List.append_assoc]
        have hpairs2 : ToolTurnPairs (tail ++ toolConvPairs exec r1.toolUses) :=
          toolTurnPairs_append hpairs (toolTurnPairs_toolConvPairs exec r1.toolUses)
        have htail2 : tail ++ toolConvPairs exec r1.toolUses ≠ [] := by
          intro hnil
          rcases List.append_eq_nil.mp hnil with ⟨_, h2⟩
          exact toolConvPairs_ne_nil exec r1.toolUses htus h2
        have hcalls2 : ∀ c ∈ (st.calls ++ [(EvOrigin.firstCall, topArg)])
            ++ [(EvOrigin.continuation, st.conv ++ toolConvPairs exec r1.toolUses)],
            (c.1 = EvOrigin.firstCall → c.2 = topArg) ∧
            (c.1 = EvOrigin.continuation →
              ∃ t, t ≠ [] ∧ c.2 = conv0 ++ t ∧ ToolTurnPairs t) := by
          intro c hc
          rcases List.mem_append.mp hc with h' | h'
          · exact hcalls1 c h'
          · simp at h'
            subst h'
            refine ⟨fun hk => by simp at hk, fun _ => ?_⟩
            exact ⟨tail ++ toolConvPairs exec r1.toolUses, htail2, hconv2, hpairs2⟩
        split
        next ts e heq2 =>
          dsimp only
          exact ⟨hcalls2, tail ++ toolConvPairs exec r1.toolUses, hconv2, hpairs2⟩
        next r2 heq2 =>
          split
          next hg2 =>
            dsimp only
            exact ⟨hcalls2, tail ++ toolConvPairs exec r1.toolUses, hconv2, hpairs2⟩
          next hg2 =>
            apply ih _ _ ((tail ++ toolConvPairs exec r1.toolUses)
              ++ toolConvPairs exec r2.toolUses)
            · rw [execToolUses_spec]
              dsimp only
              rw [hconv2]
              simp [List.append_assoc]
            · exact toolTurnPairs_append hpairs2
                (toolTurnPairs_toolConvPairs exec r2.toolUses)
            · rw [execToolUses_spec]
              dsimp only
              exact hcalls2

/-- C4 (amended): the loop does append both the model's tool-invocation
turn and the synthesized tool-result turn for every executed tool use —
the conversation history always consists of the caller-supplied
messages followed by adjacent id-correlated tool_use / tool_result
pairs, and every continuation call receives that strictly extended
history — but the loop-top completion call of every iteration is passed
the original caller-supplied messages, not the extended history. -/
theorem loop_history_extension (script : Nat → CallOutcome)
    (exec : ToolUse → ToolResult) (msgs : List ChatMessage) (h : msgs ≠ []) :
    (∀ c ∈ (createChatStreamWithTools script exec msgs).calls,
      (c.1 = EvOrigin.firstCall → c.2 = plainMsgs msgs) ∧
      (c.1 = EvOrigin.continuation →
        ∃ t, t ≠ [] ∧ c.2 = plainMsgs msgs ++ t ∧ ToolTurnPairs t)) ∧
    ∃ t, (createChatStreamWithTools script exec msgs).conv
      = plainMsgs msgs ++ t ∧ ToolTurnPairs t := by
  unfold createChatStreamWithTools
  rw [if_neg (by simp [List.isEmpty_iff, h])]
  dsimp only
  rw [sliceConcat_of_ne_nil msgs h]
  have hmain := loopGo_calls_shape script exec
    (msgs.map (fun m => AMsg.plain m.role m.content))
    (msgs.map (fun m => AMsg.plain m.role m.content))
    MAX_TOOL_ITERATIONS 0
    { events := [], calls := [],
      conv := msgs.map (fun m => AMsg.plain m.role m.content),
      errored := false }
    [] (by simp) ToolTurnPairs.nil (by simp)
  split
  · exact hmain
  · exact hmain

/-- Witness for the C4 amended theorem: the one-tool run's final
conversation extends the original history by id-correlated pairs. -/
theorem loop_history_extension_witness :
    ∃ t, (createChatStreamWithTools scriptOneTool chatExecDisplay chatMsgsOne).conv
      = plainMsgs chatMsgsOne ++ t ∧ ToolTurnPairs t :=
  (loop_history_extension scriptOneTool chatExecDisplay chatMsgsOne (by decide)).2

/-- C4 (counterexample): after the first iteration has executed two
tool rounds (growing the internal history to 5 and then 7 entries), the
second iteration's loop-top completion call — the third call of the
request — is still passed the original single-message caller history,
not the extended history. -/
theorem loop_reuses_original_history_counterexample :
    (createChatStreamWithTools scriptTwoRounds chatExecDisplay chatMsgsOne).calls.get? 2
      = some (EvOrigin.firstCall, [AMsg.plain "user" "hi"]) ∧
    (createChatStreamWithTools scriptTwoRounds chatExecDisplay chatMsgsOne).conv.length
      = 7 := by
  constructor
  · decide
  · decide
